import Mathlib

/-!
Shallow embedding of the `agent-leader` orchestrator core
(`src/orchestrator/engine.py`, `src/orchestrator/bus.py`,
`src/orchestrator/policy.py`, and the `_manager_cycle` procedure of
`src/orchestrator_mcp_server.py`).

Modelling conventions:
* JSON documents become Lean structures; Python dicts become association
  lists (`List (String × _)`) with first-match lookup, which matches the
  unique-key discipline the engine maintains.
* Timestamps are integers (seconds); the engine's ISO-8601 strings are an
  encoding detail.  Fresh ids (`uuid.uuid4()`) are passed as explicit
  arguments.
* Python string operations are modelled for ASCII content: `str.lower`
  via `Char.toLower`, `str.strip` and the regex `\s+` via the ASCII
  whitespace class.
* Fallible operations return `Except String _`; operations that mutate
  state before raising return the partially updated state alongside the
  error, mirroring the on-disk effects of the source.
-/

namespace AgentLeader

/-- ASCII whitespace, the characters matched by Python's `\s` and removed
by `str.strip` on ASCII input. -/
def isPySpace (c : Char) : Bool :=
  c = ' ' || c = '\t' || c = '\n' || c = '\r' || c = '\x0b' || c = '\x0c'

/-- Python `str.strip()` on ASCII input. -/
def pyStrip (s : String) : String :=
  String.mk (((s.toList.dropWhile isPySpace).reverse.dropWhile isPySpace).reverse)

/-- Python `str.lower()` on ASCII input. -/
def pyLower (s : String) : String :=
  String.mk (s.toList.map Char.toLower)

/-- Replace every maximal run of whitespace by a single space
(Python `re.sub(r"\s+", " ", s)`).  The flag records whether the previous
character was part of a whitespace run. -/
def collapseWsAux : Bool → List Char → List Char
  | _, [] => []
  | lastSpace, c :: rest =>
    if isPySpace c then
      if lastSpace then collapseWsAux true rest
      else ' ' :: collapseWsAux true rest
    else c :: collapseWsAux false rest

/-- Whitespace collapse on a string (`re.sub(r"\s+", " ", s)`). -/
def collapseWs (s : String) : String :=
  String.mk (collapseWsAux false s.toList)

/-- Association-list update: replace the value of the first occurrence of
the key, or append the pair (Python `d[k] = v` on a dict). -/
def alSet {β : Type} : List (String × β) → String → β → List (String × β)
  | [], k, v => [(k, v)]
  | (k', v') :: rest, k, v =>
    if k' = k then (k, v) :: rest else (k', v') :: alSet rest k v

/-- Association-list removal of a key (Python `del d[k]`). -/
def alErase {β : Type} (k : String) : List (String × β) → List (String × β)
  | [] => []
  | (k', v) :: rest => if k' = k then rest else (k', v) :: alErase k rest

/-- Metadata dictionaries attached to agent records. -/
abbrev Metadata := List (String × String)

/-- Python `d.get(k, "")` on a metadata dict. -/
def mdGet (md : Metadata) (k : String) : String :=
  (List.lookup k md).getD ""

/-- Python `dict.update`: the keys of `new` overwrite or extend `old`. -/
def dictUpdate (old new : Metadata) : Metadata :=
  new.foldl (fun acc p => alSet acc p.1 p.2) old

/-- Replace the first element satisfying `p` by its image under `f`
(the engine's find-then-mutate pattern over JSON arrays). -/
def replaceFirstBy {α : Type} (p : α → Bool) (f : α → α) : List α → List α
  | [] => []
  | x :: rest => if p x then f x :: rest else x :: replaceFirstBy p f rest

/-- Task record (`state/tasks.json` entries). -/
structure Task where
  id : String
  title : String := ""
  description : String := ""
  workstream : String := ""
  owner : String := ""
  status : String := ""
  acceptanceCriteria : List String := []
  createdAt : Int := 0
  updatedAt : Int := 0
  reassignedFrom : Option String := none
  degradedComm : Bool := false
  degradedCommReason : String := ""
deriving Repr, DecidableEq

/-- Bug record (`state/bugs.json` entries). -/
structure Bug where
  id : String
  sourceTask : String := ""
  owner : String := ""
  severity : String := ""
  reproSteps : String := ""
  expected : String := ""
  actual : String := ""
  status : String := ""
  createdAt : Int := 0
  closedAt : Option Int := none
  resolutionNote : String := ""
deriving Repr, DecidableEq

/-- Blocker record (`state/blockers.json` entries). -/
structure Blocker where
  id : String
  taskId : String := ""
  agent : String := ""
  question : String := ""
  options : List String := []
  severity : String := ""
  status : String := ""
  createdAt : Int := 0
  resolution : String := ""
  resolvedBy : String := ""
  resolvedAt : Option Int := none
deriving Repr, DecidableEq

/-- Agent registry entry (`state/agents.json` values). -/
structure AgentEntry where
  agent : String := ""
  status : String := ""
  metadata : Metadata := []
  lastSeen : Option Int := none
deriving Repr, DecidableEq

/-- The `test_summary` object of a completion report.  `none` fields model
absent keys. -/
structure TestSummary where
  command : Option String := none
  passed : Option Int := none
  failed : Option Int := none
deriving Repr, DecidableEq

/-- A completion report payload.  `none` fields model absent keys. -/
structure Report where
  taskId : Option String := none
  agent : Option String := none
  commitSha : Option String := none
  status : Option String := none
  testSummary : Option TestSummary := none
  notes : String := ""
deriving Repr, DecidableEq

/-- Report retry-queue entry (`state/report_retry_queue.json` entries). -/
structure RetryEntry where
  id : String
  status : String := ""
  report : Report := {}
  attempts : Int := 0
  lastError : String := ""
  createdAt : Int := 0
  updatedAt : Int := 0
  nextRetryAt : Int := 0
  submittedAt : Option Int := none
deriving Repr, DecidableEq

/-- Command file written under `bus/commands/<task_id>.json`. -/
structure CommandFile where
  taskId : String
  owner : String := ""
  title : String := ""
  description : String := ""
  workstream : String := ""
  acceptanceCriteria : List String := []
deriving Repr, DecidableEq

/-- One record of the append-only event log.  The `audience` field models
`payload["audience"]`; `data` carries the remaining payload entries as
strings. -/
structure BusEvent where
  type : String
  source : String := ""
  audience : Option (List String) := none
  data : List (String × String) := []
deriving Repr, DecidableEq

/-- Routing policy (`Policy` of `policy.py`): the workstream routing table
and the configured manager agent. -/
structure Policy where
  routing : List (String × String) := []
  manager : String := "codex"
  heartbeatTimeoutMinutes : Int := 10
deriving Repr, DecidableEq

/-- Policy.task_owner_for: route a workstream to its owner, falling back to
the `default` route and then the manager. -/
def Policy.taskOwnerFor (p : Policy) (workstream : String) : String :=
  match List.lookup workstream p.routing with
  | some o => o
  | none =>
    match List.lookup "default" p.routing with
    | some o => o
    | none => p.manager

/-- The whole persistent state of one orchestrator root: the state
documents, the report/command files, and the raw lines of
`bus/events.jsonl` (`none` models a malformed or blank line). -/
structure OrchState where
  root : String
  policy : Policy := {}
  rolesLeader : String := ""
  tasks : List Task := []
  bugs : List Bug := []
  blockers : List Blocker := []
  agents : List (String × AgentEntry) := []
  cursors : List (String × Nat) := []
  claimOverrides : List (String × String) := []
  retryQueue : List RetryEntry := []
  reports : List (String × Report) := []
  commands : List (String × CommandFile) := []
  events : List (Option BusEvent) := []
deriving Repr, DecidableEq

/-- Orchestrator.manager_agent: the leader from `roles.json` when it is a
non-blank string, else the policy manager. -/
def managerAgent (st : OrchState) : String :=
  if pyStrip st.rolesLeader ≠ "" then st.rolesLeader else st.policy.manager

/-- EventBus.emit, reduced to its persistent effect: append one parsed line
to the event log. -/
def emitEvent (st : OrchState) (e : BusEvent) : OrchState :=
  { st with events := st.events ++ [some e] }

/-- Orchestrator._path_within_project for already-resolved absolute paths:
the path is the root itself or the root is a strict ancestor. -/
def pathWithinProject (root p : String) : Bool :=
  p == root || (root ++ "/").isPrefixOf p

/-- Same-project decision of Orchestrator._identity_snapshot: compare the
declared `project_root` against the orchestrator root, and/or check that
the declared `cwd` lies within it.  Empty declarations model unresolvable
paths (`_safe_resolve` returning `None`). -/
def sameProjectOf (root : String) (md : Metadata) : Bool :=
  let pr := mdGet md "project_root"
  let cw := mdGet md "cwd"
  if pr ≠ "" && cw ≠ "" then pr == root && pathWithinProject root cw
  else if pr ≠ "" then pr == root
  else if cw ≠ "" then pathWithinProject root cw
  else false

/-- The nine identity keys required by Orchestrator._verification_for_entry
and Orchestrator._agent_is_operational. -/
def requiredIdentityKeys : List String :=
  ["client", "model", "cwd", "permissions_mode", "sandbox_mode",
   "session_id", "connection_id", "server_version", "verification_source"]

/-- All nine required identity keys are present and non-blank. -/
def identityComplete (md : Metadata) : Bool :=
  requiredIdentityKeys.all fun k => pyStrip (mdGet md k) != ""

/-- Orchestrator._agent_is_operational: complete identity and same-project,
with no freshness requirement. -/
def agentIsOperational (st : OrchState) (agent : String) : Bool :=
  if pyStrip agent == "" then false
  else
    match List.lookup agent st.agents with
    | none => false
    | some entry => identityComplete entry.metadata && sameProjectOf st.root entry.metadata

/-- Orchestrator._heartbeat_timeout_seconds: policy minutes, floored at
60 seconds. -/
def heartbeatTimeoutSeconds (p : Policy) : Int :=
  max 60 (p.heartbeatTimeoutMinutes * 60)

/-- Verified decision of Orchestrator._identity_snapshot (identity keys,
recent heartbeat, same project). -/
def entryVerified (st : OrchState) (entry : AgentEntry) (staleAfter now : Int) : Bool :=
  identityComplete entry.metadata &&
    (match entry.lastSeen with
     | some ts => decide (now - ts ≤ staleAfter)
     | none => false) &&
    sameProjectOf st.root entry.metadata

/-- The `active` field of Orchestrator._team_member_connect_diagnostic:
recent heartbeat, demoted to false when the identity is unverified. -/
def teamMemberActive (st : OrchState) (member : String) (staleAfter now : Int) : Bool :=
  let entry := (List.lookup member st.agents).getD {}
  let ageOk :=
    match entry.lastSeen with
    | some ts => decide (now - ts ≤ staleAfter)
    | none => false
  ageOk && entryVerified st entry staleAfter now

/-- Orchestrator.register_agent.  The supplied metadata replaces the stored
metadata when non-empty (Python `metadata or entry.get("metadata", {})`).
The emitted `agent.registered` payload is projected to its `agent` key. -/
def registerAgent (st : OrchState) (agent : String) (metadata : Metadata) (now : Int) :
    AgentEntry × OrchState :=
  let old := (List.lookup agent st.agents).getD {}
  let entry : AgentEntry :=
    { agent := agent
      status := "active"
      metadata := if metadata.isEmpty then old.metadata else metadata
      lastSeen := some now }
  let st := { st with agents := alSet st.agents agent entry }
  (entry, emitEvent st { type := "agent.registered", source := agent, data := [("agent", agent)] })

/-- Orchestrator.heartbeat.  The supplied metadata is shallow-merged into
the stored metadata when non-empty. -/
def heartbeat (st : OrchState) (agent : String) (metadata : Metadata) (now : Int) :
    AgentEntry × OrchState :=
  let old := (List.lookup agent st.agents).getD { agent := agent, metadata := [] }
  let entry : AgentEntry :=
    { old with
      status := "active"
      metadata := if metadata.isEmpty then old.metadata else dictUpdate old.metadata metadata
      lastSeen := some now }
  let st := { st with agents := alSet st.agents agent entry }
  (entry, emitEvent st { type := "agent.heartbeat", source := agent, data := [("agent", agent)] })

/-- Orchestrator._refresh_agent_presence: stamp `last_seen` and set the
agent active without emitting an event. -/
def refreshAgentPresence (st : OrchState) (agent : String) (now : Int) : OrchState :=
  if pyStrip agent == "" then st
  else
    let old := (List.lookup agent st.agents).getD { agent := agent, metadata := [] }
    let entry := { old with status := "active", lastSeen := some now }
    { st with agents := alSet st.agents agent entry }

/-- Orchestrator._task_fingerprint:
`lower(strip(owner)) :: lower(strip(workstream)) :: collapse(lower(strip(title)))`. -/
def taskFingerprint (title workstream owner : String) : String :=
  let normTitle := collapseWs (pyLower (pyStrip title))
  pyLower (pyStrip owner) ++ "::" ++ pyLower (pyStrip workstream) ++ "::" ++ normTitle

/-- The open statuses searched by dedupe and duplicate detection. -/
def openStatuses : List String :=
  ["assigned", "in_progress", "reported", "bug_open", "blocked"]

/-- Orchestrator._find_duplicate_open_task: the first open task whose
fingerprint matches the candidate. -/
def findDuplicateOpenTask (tasks : List Task) (title workstream owner : String) : Option Task :=
  let candidateKey := taskFingerprint title workstream owner
  tasks.find? fun t =>
    openStatuses.contains t.status &&
      (taskFingerprint t.title t.workstream t.owner == candidateKey)

/-- Result of Orchestrator.create_task: the task record echoed to the
caller, with the `deduplicated` marker of the collision branch. -/
structure CreateTaskResult where
  task : Task
  deduplicated : Bool
deriving Repr, DecidableEq

/-- Owner resolution of Orchestrator.create_task: an absent or empty
supplied owner falls back to policy routing
(Python `owner or policy.task_owner_for(workstream)`). -/
def resolveOwner (st : OrchState) (workstream : String) (owner : Option String) : String :=
  match owner with
  | some o => if o == "" then st.policy.taskOwnerFor workstream else o
  | none => st.policy.taskOwnerFor workstream

/-- Orchestrator.create_task.  `taskId` stands for the generated
`TASK-<hex>` id. -/
def createTask (st : OrchState) (title workstream : String)
    (acceptanceCriteria : List String) (description : String) (owner : Option String)
    (taskId : String) (now : Int) : CreateTaskResult × OrchState :=
  let resolvedOwner := resolveOwner st workstream owner
  match findDuplicateOpenTask st.tasks title workstream resolvedOwner with
  | some dup => ({ task := dup, deduplicated := true }, st)
  | none =>
    let task : Task :=
      { id := taskId
        title := title
        description := description
        workstream := workstream
        owner := resolvedOwner
        status := "assigned"
        acceptanceCriteria := acceptanceCriteria
        createdAt := now
        updatedAt := now }
    let st := { st with tasks := st.tasks ++ [task] }
    let cmd : CommandFile :=
      { taskId := taskId
        owner := resolvedOwner
        title := title
        description := description
        workstream := workstream
        acceptanceCriteria := acceptanceCriteria }
    let st := { st with commands := alSet st.commands taskId cmd }
    let st := emitEvent st
      { type := "task.assigned"
        source := managerAgent st
        data := [("task_id", taskId), ("owner", resolvedOwner), ("workstream", workstream)] }
    ({ task := task, deduplicated := false }, st)

/-- Normal-order claim scan of Orchestrator.claim_next_task: the first task
owned by the caller in `assigned` or `bug_open` moves to `in_progress`. -/
def scanClaim (st : OrchState) (owner : String) (now : Int) : Option Task × OrchState :=
  let claimable := fun (t : Task) =>
    t.owner == owner && (t.status == "assigned" || t.status == "bug_open")
  match st.tasks.find? claimable with
  | none => (none, st)
  | some t =>
    let tasks := replaceFirstBy claimable
      (fun u => { u with status := "in_progress", updatedAt := now }) st.tasks
    let st := { st with tasks := tasks }
    let st := emitEvent st
      { type := "task.claimed"
        source := owner
        data := [("task_id", t.id), ("owner", owner)] }
    (some { t with status := "in_progress", updatedAt := now }, st)

/-- Orchestrator.claim_next_task: operational gate, presence refresh,
manager claim-override branch, then the normal claim scan. -/
def claimNextTask (st : OrchState) (owner : String) (now : Int) :
    Except String (Option Task × OrchState) :=
  if !agentIsOperational st owner then
    .error ("agent_not_operational_or_wrong_project: " ++ owner)
  else
    let st := refreshAgentPresence st owner now
    let overrideTaskId := (List.lookup owner st.claimOverrides).getD ""
    if pyStrip overrideTaskId != "" then
      let forcedMatch := fun (t : Task) => t.id == overrideTaskId && t.owner == owner
      match st.tasks.find? forcedMatch with
      | some forced =>
        if forced.status == "assigned" || forced.status == "bug_open" then
          let tasks := replaceFirstBy forcedMatch
            (fun u => { u with status := "in_progress", updatedAt := now }) st.tasks
          let st := { st with tasks := tasks }
          let st := { st with claimOverrides := alErase owner st.claimOverrides }
          let st := emitEvent st
            { type := "task.claimed"
              source := owner
              data := [("task_id", forced.id), ("owner", owner), ("via", "manager_override")] }
          .ok (some { forced with status := "in_progress", updatedAt := now }, st)
        else
          .ok (scanClaim { st with claimOverrides := alErase owner st.claimOverrides } owner now)
      | none =>
        .ok (scanClaim { st with claimOverrides := alErase owner st.claimOverrides } owner now)
    else
      .ok (scanClaim st owner now)

/-- Orchestrator._validate_report_payload: commit and test-summary shape
checks. -/
def validateReportPayload (r : Report) : Except String Unit :=
  if pyStrip (r.commitSha.getD "") == "" then
    .error "commit_sha must be a non-empty string"
  else
    match r.testSummary with
    | none => .error "test_summary must be an object"
    | some s =>
      if s.command.isNone then .error "test_summary missing required field: command"
      else if s.passed.isNone then .error "test_summary missing required field: passed"
      else if s.failed.isNone then .error "test_summary missing required field: failed"
      else if pyStrip (s.command.getD "") == "" then
        .error "test_summary.command must be a non-empty string"
      else if (s.passed.getD 0) < 0 then
        .error "test_summary.passed must be a non-negative integer"
      else if (s.failed.getD 0) < 0 then
        .error "test_summary.failed must be a non-negative integer"
      else .ok ()

/-- Orchestrator.ingest_report.  Returns the error (if any) together with
the state as mutated so far: a presence refresh that precedes a task-lookup
failure persists, as it does on disk. -/
def ingestReport (st : OrchState) (r : Report) (now : Int) :
    Except String Report × OrchState :=
  if r.taskId.isNone || r.agent.isNone || r.commitSha.isNone ||
      r.testSummary.isNone || r.status.isNone then
    (.error "Missing report fields", st)
  else
    match validateReportPayload r with
    | .error e => (.error e, st)
    | .ok () =>
      let agent := r.agent.getD ""
      if !agentIsOperational st agent then
        (.error ("agent_not_operational_or_wrong_project: " ++ agent), st)
      else
        let taskId := r.taskId.getD ""
        let st := refreshAgentPresence st agent now
        match st.tasks.find? (fun t => t.id == taskId) with
        | none => (.error ("Task not found: " ++ taskId), st)
        | some task =>
          if task.owner != agent then
            (.error ("Report agent '" ++ agent ++ "' does not match task owner '"
              ++ task.owner ++ "'"), st)
          else
            let st := { st with reports := alSet st.reports taskId r }
            let tasks := replaceFirstBy (fun t => t.id == taskId)
              (fun t => { t with status := "reported", updatedAt := now }) st.tasks
            let st := { st with tasks := tasks }
            let st := emitEvent st
              { type := "task.reported"
                source := agent
                data := [("task_id", taskId), ("agent", agent),
                         ("status", r.status.getD "")] }
            (.ok r, st)

/-- Orchestrator.set_task_status: the free-form status update. -/
def setTaskStatus (st : OrchState) (taskId status source note : String) (now : Int) :
    Except String (Task × OrchState) :=
  let manager := managerAgent st
  if source != manager && !agentIsOperational st source then
    .error ("agent_not_operational_or_wrong_project: " ++ source)
  else
    let normalized := pyLower (pyStrip status)
    if (normalized == "done" || normalized == "reported") && source != managerAgent st then
      .error "Use orchestrator_submit_report for completion/report transitions"
    else
      match st.tasks.find? (fun t => t.id == taskId) with
      | none => .error ("Task not found: " ++ taskId)
      | some task =>
        if source != task.owner && source != manager then
          .error ("unauthorized_status_update: source=" ++ source ++ ", task_owner="
            ++ task.owner ++ ", current_leader=" ++ manager)
        else
          let tasks := replaceFirstBy (fun t => t.id == taskId)
            (fun t => { t with status := status, updatedAt := now }) st.tasks
          let st := { st with tasks := tasks }
          let st := emitEvent st
            { type := "task.status_changed"
              source := source
              data := [("task_id", taskId), ("status", status),
                       ("owner", task.owner), ("note", note)] }
          .ok ({ task with status := status, updatedAt := now }, st)

/-- Orchestrator._open_bug: append a fresh open bug. -/
def openBug (st : OrchState) (sourceTask owner severity reproSteps expected actual : String)
    (bugId : String) (now : Int) : Bug × OrchState :=
  let bug : Bug :=
    { id := bugId
      sourceTask := sourceTask
      owner := owner
      severity := severity
      reproSteps := reproSteps
      expected := expected
      actual := actual
      status := "open"
      createdAt := now }
  (bug, { st with bugs := st.bugs ++ [bug] })

/-- Loop body of Orchestrator._close_bugs_for_task: close every not-closed
bug of the task, emitting `bug.closed` per closure. -/
def closeBugsGo (taskId note : String) (now : Int) :
    List Bug → OrchState → List Bug → OrchState
  | [], st, acc => { st with bugs := acc.reverse }
  | bug :: rest, st, acc =>
    if bug.sourceTask == taskId && bug.status != "closed" then
      let bug' := { bug with status := "closed", closedAt := some now, resolutionNote := note }
      let st := emitEvent st
        { type := "bug.closed"
          source := managerAgent st
          data := [("bug_id", bug.id), ("source_task", taskId), ("note", note)] }
      closeBugsGo taskId note now rest st (bug' :: acc)
    else
      closeBugsGo taskId note now rest st (bug :: acc)

/-- Orchestrator._close_bugs_for_task. -/
def closeBugsForTask (st : OrchState) (taskId note : String) (now : Int) : OrchState :=
  closeBugsGo taskId note now st.bugs st []

/-- Orchestrator.validate_task.  `bugId` stands for the generated
`BUG-<hex>` id used by the failure branch. -/
def validateTask (st : OrchState) (taskId : String) (passed : Bool) (notes source : String)
    (bugId : String) (now : Int) : Except String OrchState :=
  let manager := managerAgent st
  if source != manager then
    .error ("leader_mismatch: source=" ++ source ++ ", current_leader=" ++ manager)
  else
    match st.tasks.find? (fun t => t.id == taskId) with
    | none => .error ("Task not found: " ++ taskId)
    | some task =>
      if passed then
        let tasks := replaceFirstBy (fun t => t.id == taskId)
          (fun t => { t with status := "done", updatedAt := now }) st.tasks
        let st := { st with tasks := tasks }
        let st := closeBugsForTask st taskId notes now
        let st := emitEvent st
          { type := "validation.passed"
            source := source
            data := [("task_id", taskId), ("owner", task.owner), ("notes", notes)] }
        .ok st
      else
        let tasks := replaceFirstBy (fun t => t.id == taskId)
          (fun t => { t with status := "bug_open", updatedAt := now }) st.tasks
        let st := { st with tasks := tasks }
        let (bug, st) := openBug st taskId task.owner "high" notes
          "Task meets acceptance criteria" "Validation failed" bugId now
        let st := emitEvent st
          { type := "validation.failed"
            source := source
            data := [("task_id", taskId), ("bug_id", bug.id),
                     ("owner", task.owner), ("notes", notes)] }
        .ok st

/-- Orchestrator.raise_blocker.  `blockerId` stands for the generated
`BLK-<hex>` id. -/
def raiseBlocker (st : OrchState) (taskId agent question : String) (options : List String)
    (severity : String) (blockerId : String) (now : Int) :
    Except String (Blocker × OrchState) :=
  match st.tasks.find? (fun t => t.id == taskId) with
  | none => .error ("Task not found: " ++ taskId)
  | some task =>
    if task.owner != agent then
      .error ("Blocker agent '" ++ agent ++ "' does not match task owner '"
        ++ task.owner ++ "'")
    else
      let tasks := replaceFirstBy (fun t => t.id == taskId)
        (fun t => { t with status := "blocked", updatedAt := now }) st.tasks
      let st := { st with tasks := tasks }
      let blocker : Blocker :=
        { id := blockerId
          taskId := taskId
          agent := agent
          question := question
          options := options
          severity := severity
          status := "open"
          createdAt := now }
      let st := { st with blockers := st.blockers ++ [blocker] }
      let st := emitEvent st
        { type := "blocker.raised"
          source := agent
          data := [("blocker_id", blockerId), ("task_id", taskId),
                   ("agent", agent), ("severity", severity), ("question", question)] }
      .ok (blocker, st)

/-- Orchestrator.resolve_blocker: idempotent early return on an already
resolved blocker, otherwise mark resolved and resume the blocked task
according to the owner diagnostic. -/
def resolveBlocker (st : OrchState) (blockerId resolution source : String) (now : Int) :
    Except String (Blocker × OrchState) :=
  match st.blockers.find? (fun b => b.id == blockerId) with
  | none => .error ("Blocker not found: " ++ blockerId)
  | some blocker =>
    if blocker.status == "resolved" then
      .ok (blocker, st)
    else
      let resolved := fun (b : Blocker) =>
        { b with
          status := "resolved"
          resolution := resolution
          resolvedBy := source
          resolvedAt := some now }
      let blockers := replaceFirstBy (fun b => b.id == blockerId) resolved st.blockers
      let st := { st with blockers := blockers }
      let st :=
        match st.tasks.find? (fun t => t.id == blocker.taskId) with
        | none => st
        | some task =>
          if task.status == "blocked" then
            let staleAfter := heartbeatTimeoutSeconds st.policy
            let ownerActive := teamMemberActive st task.owner staleAfter now
            let tasks := replaceFirstBy (fun t => t.id == blocker.taskId)
              (fun t =>
                if ownerActive then { t with status := "in_progress", updatedAt := now }
                else
                  { t with
                    status := "assigned"
                    updatedAt := now
                    degradedComm := true
                    degradedCommReason := "blocker resolved while owner not active" })
              st.tasks
            let st := { st with tasks := tasks }
            if ownerActive then st
            else emitEvent st
              { type := "team_member.degraded_comm"
                source := "orchestrator"
                data := [("task_id", task.id), ("owner", task.owner),
                         ("reason", "blocker resolved while owner offline/stale")] }
          else st
      let st := emitEvent st
        { type := "blocker.resolved"
          source := source
          data := [("blocker_id", blockerId), ("task_id", blocker.taskId),
                   ("resolution", resolution)] }
      .ok (resolved blocker, st)

/-- EventBus.iter_events_from, with the running raw-line index made
explicit: lines below `start` and malformed lines are skipped, but every
raw line advances the logical index. -/
def iterEventsFromAux (start : Nat) : Nat → List (Option BusEvent) → List (Nat × BusEvent)
  | _, [] => []
  | idx, line :: rest =>
    if idx < start then iterEventsFromAux start (idx + 1) rest
    else
      match line with
      | none => iterEventsFromAux start (idx + 1) rest
      | some e => (idx, e) :: iterEventsFromAux start (idx + 1) rest

/-- EventBus.iter_events_from starting from raw-line index 0. -/
def iterEventsFrom (start : Nat) (lines : List (Option BusEvent)) : List (Nat × BusEvent) :=
  iterEventsFromAux start 0 lines

/-- Audience filter of Orchestrator.poll_events: an event is delivered when
its audience is absent or empty, or names the agent, or names `*`. -/
def audiencePasses (agent : String) (aud : Option (List String)) : Bool :=
  match aud with
  | none => true
  | some l => l.isEmpty || l.contains agent || l.contains "*"

/-- The iteration loop of Orchestrator.poll_events over the pairs yielded
by `iter_events_from`: audience-skipped events advance the running cursor,
accepted events are accumulated and advance it, and iteration stops once
`limit` events are accepted. -/
def pollLoop (agent : String) (limit : Int) :
    List (Nat × BusEvent) → List (Nat × BusEvent) → Nat →
    List (Nat × BusEvent) × Nat
  | [], acc, cur => (acc.reverse, cur)
  | (idx, ev) :: rest, acc, _cur =>
    if !audiencePasses agent ev.audience then
      pollLoop agent limit rest acc (idx + 1)
    else
      let acc' := (idx, ev) :: acc
      if (acc'.length : Int) ≥ limit then (acc'.reverse, idx + 1)
      else pollLoop agent limit rest acc' (idx + 1)

/-- Return value of Orchestrator.poll_events; delivered events carry their
raw-line offset. -/
structure PollResult where
  agent : String
  cursor : Nat
  nextCursor : Nat
  events : List (Nat × BusEvent)
deriving Repr, DecidableEq

/-- Orchestrator.get_agent_cursor. -/
def getAgentCursor (st : OrchState) (agent : String) : Nat :=
  (List.lookup agent st.cursors).getD 0

/-- Orchestrator._set_agent_cursor (clamped below at 0). -/
def setAgentCursor (st : OrchState) (agent : String) (cursor : Int) : OrchState :=
  { st with cursors := alSet st.cursors agent cursor.toNat }

/-- Orchestrator.poll_events.  The long-poll wait is timeless in this
model; everything else follows the source: operational gate, presence
refresh, cursor resolution, audience-filtered iteration, optional
auto-advance of the stored cursor. -/
def pollEvents (st : OrchState) (agent : String) (cursor : Option Int) (limit : Int)
    (autoAdvance : Bool) (now : Int) : Except String (PollResult × OrchState) :=
  if !agentIsOperational st agent then
    .error ("agent_not_operational_or_wrong_project: " ++ agent)
  else
    let st := refreshAgentPresence st agent now
    let start : Nat :=
      match cursor with
      | none => getAgentCursor st agent
      | some c => c.toNat
    let (filtered, nextCursor) := pollLoop agent limit (iterEventsFrom start st.events) [] start
    let st := if autoAdvance then setAgentCursor st agent (nextCursor : Int) else st
    .ok ({ agent := agent, cursor := start, nextCursor := nextCursor, events := filtered }, st)

/-- Orchestrator.enqueue_report_retry: update the matching pending entry in
place, or append a fresh pending entry.  The match compares the stored raw
`task_id`/`agent` values against the stringified incoming ones
(`str(report.get(..., ""))`), so reports missing either key never match. -/
def enqueueReportRetry (st : OrchState) (r : Report) (err : String) (entryId : String)
    (now : Int) : RetryEntry × OrchState :=
  let reportTaskId := r.taskId.getD ""
  let reportAgent := r.agent.getD ""
  let matchesPending := fun (item : RetryEntry) =>
    item.status == "pending" && item.report.taskId == some reportTaskId &&
      item.report.agent == some reportAgent
  match st.retryQueue.find? matchesPending with
  | some existing =>
    let queue := replaceFirstBy matchesPending
      (fun item => { item with report := r, lastError := err, updatedAt := now })
      st.retryQueue
    let st := { st with retryQueue := queue }
    let st := emitEvent st
      { type := "report.retry_queued"
        source := "orchestrator"
        data := [("queue_id", existing.id), ("task_id", reportTaskId),
                 ("agent", reportAgent), ("error", err)] }
    ({ existing with report := r, lastError := err, updatedAt := now }, st)
  | none =>
    let entry : RetryEntry :=
      { id := entryId
        status := "pending"
        report := r
        attempts := 0
        lastError := err
        createdAt := now
        updatedAt := now
        nextRetryAt := now }
    let st := { st with retryQueue := st.retryQueue ++ [entry] }
    let st := emitEvent st
      { type := "report.retry_queued"
        source := "orchestrator"
        data := [("queue_id", entryId), ("task_id", reportTaskId),
                 ("agent", reportAgent), ("error", err)] }
    (entry, st)

/-- Backoff of Orchestrator.process_report_retry_queue:
`min(max_backoff, max(1, base_backoff) * 2 ** max(0, attempts - 1))` where
`attempts` is the already incremented counter. -/
def retryBackoffSeconds (baseBackoff maxBackoff attempts : Int) : Int :=
  min maxBackoff (max 1 baseBackoff * 2 ^ (max 0 (attempts - 1)).toNat)

/-- Failure branch of the Orchestrator.process_report_retry_queue loop:
increment attempts, schedule the next retry, and mark the entry failed once
attempts reach `max(1, max_attempts)`. -/
def applyRetryFailure (st : OrchState) (queueId : String) (attemptsPrev : Int)
    (err taskIdStr agentStr : String) (maxAttempts baseBackoff maxBackoff now : Int) :
    OrchState :=
  let attempts := attemptsPrev + 1
  let backoff := retryBackoffSeconds baseBackoff maxBackoff attempts
  let nextRetry := now + backoff
  let terminal := attempts ≥ max 1 maxAttempts
  let queue := replaceFirstBy (fun e => e.id == queueId)
    (fun e =>
      { e with
        attempts := attempts
        lastError := err
        updatedAt := now
        nextRetryAt := nextRetry
        status := if terminal then "failed" else e.status })
    st.retryQueue
  let st := { st with retryQueue := queue }
  emitEvent st
    { type := if terminal then "report.retry_failed" else "report.retry_retrying"
      source := "orchestrator"
      data := [("queue_id", queueId), ("task_id", taskIdStr), ("agent", agentStr),
               ("attempts", toString attempts), ("error", err),
               ("next_retry_at", toString nextRetry)] }

/-- Success branch of the Orchestrator.process_report_retry_queue loop. -/
def markRetrySubmitted (st : OrchState) (queueId taskIdStr agentStr : String) (now : Int) :
    OrchState :=
  let queue := replaceFirstBy (fun e => e.id == queueId)
    (fun e =>
      { e with
        status := "submitted"
        updatedAt := now
        submittedAt := some now
        lastError := "" })
    st.retryQueue
  let st := { st with retryQueue := queue }
  emitEvent st
    { type := "report.retry_submitted"
      source := "orchestrator"
      data := [("queue_id", queueId), ("task_id", taskIdStr), ("agent", agentStr)] }

/-- Processing of one due retry-queue item: attempt the ingest, then record
either branch. -/
def processOneRetry (st : OrchState) (item : RetryEntry)
    (maxAttempts baseBackoff maxBackoff now : Int) : OrchState :=
  match ingestReport st item.report now with
  | (.ok _, st') =>
    markRetrySubmitted st' item.id (item.report.taskId.getD "") (item.report.agent.getD "") now
  | (.error e, st') =>
    applyRetryFailure st' item.id item.attempts e (item.report.taskId.getD "")
      (item.report.agent.getD "") maxAttempts baseBackoff maxBackoff now

/-- Due-item scan of Orchestrator.process_report_retry_queue: pending
entries whose retry time has passed, capped at `max(1, limit)`. -/
def dueRetryItemsGo (now : Int) (cap : Nat) :
    List RetryEntry → List RetryEntry → List RetryEntry
  | [], acc => acc.reverse
  | item :: rest, acc =>
    if item.status != "pending" then dueRetryItemsGo now cap rest acc
    else
      let acc' := if item.nextRetryAt ≤ now then item :: acc else acc
      if acc'.length ≥ cap then acc'.reverse else dueRetryItemsGo now cap rest acc'

/-- Orchestrator.process_report_retry_queue reduced to its state effect:
select the due items, then process each in order. -/
def processReportRetryQueue (st : OrchState)
    (maxAttempts baseBackoff maxBackoff limit now : Int) : OrchState :=
  let due := dueRetryItemsGo now (max 1 limit).toNat st.retryQueue []
  due.foldl (fun s item => processOneRetry s item maxAttempts baseBackoff maxBackoff now) st

/-- Pass decision of `_manager_cycle` for one report file: the report
declares `done` with zero failed tests; in strict mode the commit must be a
non-empty string and the command non-blank. -/
def managerDecision (r : Report) (strict : Bool) : Bool :=
  let summary := r.testSummary.getD {}
  let failedTests := summary.failed.getD 1
  let hasCommand := pyStrip (summary.command.getD "") != ""
  let reportStatus := r.status.getD "blocked"
  let passed := reportStatus == "done" && failedTests == 0
  if strict then passed && (r.commitSha.getD "") != "" && hasCommand else passed

/-- Validation notes written by `_manager_cycle`. -/
def autoNotes (r : Report) (passed : Bool) : String :=
  if passed then
    "Auto manager cycle accepted report " ++ (r.commitSha.getD "unknown")
  else
    "Auto manager cycle rejected report status=" ++ (r.status.getD "blocked")
      ++ ", failed_tests=" ++ toString ((r.testSummary.getD {}).failed.getD 1)
      ++ ", has_command=" ++ toString (pyStrip ((r.testSummary.getD {}).command.getD "") != "")

/-- The reported-task validation stage of `_manager_cycle`: walk the task
snapshot, validate each reported task against its report file (or fail it
when the file is missing), accumulating `(task_id, passed)` decisions.
`bugIds` supplies the fresh bug ids consumed by failed validations. -/
def managerValidateLoop (strict : Bool) (now : Int) :
    List Task → List String → List (String × Bool) → OrchState →
    Except String (List (String × Bool) × OrchState)
  | [], _, acc, st => .ok (acc.reverse, st)
  | task :: rest, bugIds, acc, st =>
    if task.status != "reported" then
      managerValidateLoop strict now rest bugIds acc st
    else
      let bid := bugIds.headD "BUG-00000000"
      let bugRest := bugIds.tail
      match List.lookup task.id st.reports with
      | none =>
        match validateTask st task.id false "Missing report file" (managerAgent st) bid now with
        | .error e => .error e
        | .ok st' => managerValidateLoop strict now rest bugRest ((task.id, false) :: acc) st'
      | some r =>
        let passed := managerDecision r strict
        match validateTask st task.id passed (autoNotes r passed) (managerAgent st) bid now with
        | .error e => .error e
        | .ok st' => managerValidateLoop strict now rest bugRest ((task.id, passed) :: acc) st'

/-- The reported-task validation stage of `_manager_cycle` applied to the
task snapshot taken at the start of the cycle. -/
def managerValidateReported (st : OrchState) (strict : Bool) (bugIds : List String)
    (now : Int) : Except String (List (String × Bool) × OrchState) :=
  managerValidateLoop strict now st.tasks bugIds [] st

/-- Boolean success test for `Except` results. -/
def exceptOk {ε α : Type} : Except ε α → Bool
  | .ok _ => true
  | .error _ => false

/-! Specification-side definitions, written from the wording of the replay
cursor contract, for comparison with the embedded `poll_events`. -/

/-- Events of the raw line list at index at least `start` that parse, in
file order, paired with their raw-line index (spec wording for
`iter_events_from`). -/
def parsedEventsSpec (start : Nat) (lines : List (Option BusEvent)) : List (Nat × BusEvent) :=
  lines.enum.filterMap fun p =>
    match p.2 with
    | some e => if start ≤ p.1 then some (p.1, e) else none
    | none => none

/-- The parsed events from `start` whose audience admits the agent (spec
wording for the delivery filter). -/
def acceptedEventsSpec (agent : String) (start : Nat) (lines : List (Option BusEvent)) :
    List (Nat × BusEvent) :=
  (parsedEventsSpec start lines).filter fun p => audiencePasses agent p.2.audience

/-- The cursor one past the last event line consumed by a poll that accepts
up to `nTake` events: when the limit is reached it sits one past the last
accepted event, otherwise one past the last parsed event line at or after
`start` (or at `start` when there is none). -/
def nextCursorSpec (agent : String) (start : Nat) (lines : List (Option BusEvent))
    (nTake : Nat) : Nat :=
  let accepted := acceptedEventsSpec agent start lines
  if nTake ≤ accepted.length then
    ((accepted.take nTake).getLast?).elim start (fun p => p.1 + 1)
  else
    ((parsedEventsSpec start lines).getLast?).elim start (fun p => p.1 + 1)

/-- Symmetric clash predicate on retry-queue entries: both pending, the
first carries present `task_id` and `agent` report fields, and the pairs
coincide. -/
def pendingPresentPairClash (a b : RetryEntry) : Prop :=
  a.status = "pending" ∧ b.status = "pending" ∧
  a.report.taskId.isSome = true ∧ a.report.agent.isSome = true ∧
  a.report.taskId = b.report.taskId ∧ a.report.agent = b.report.agent

/-- The retry-queue deduplication invariant: no two entries are pending for
the same present `(task_id, agent)` pair. -/
def NoDupPendingPairs (q : List RetryEntry) : Prop :=
  q.Pairwise fun a b => ¬ pendingPresentPairClash a b

/-- Projection of an `Except` to an `Option`. -/
def exceptToOption {ε α : Type} : Except ε α → Option α
  | .ok a => some a
  | .error _ => none

/-- Metadata carrying all nine identity keys, rooted at the given project
path (used by the example states below). -/
def fullIdentityMd (root : String) : Metadata :=
  [("client", "cli"), ("model", "m1"), ("cwd", root), ("permissions_mode", "default"),
   ("sandbox_mode", "off"), ("session_id", "s1"), ("connection_id", "c1"),
   ("server_version", "1.0"), ("verification_source", "handshake"),
   ("project_root", root)]

/-- Example task owned by `bob`. -/
def exTaskT1 : Task :=
  { id := "T1", title := "Build X", workstream := "backend",
    owner := "bob", status := "assigned" }

/-- Example state: an operational agent `alice`, an agent `bob` whose
metadata misses most identity keys, and one task owned by each. -/
def exStGate : OrchState :=
  { root := "/proj"
    rolesLeader := "codex"
    tasks := [exTaskT1,
              { id := "T2", title := "Build Y", workstream := "backend",
                owner := "alice", status := "assigned" }]
    agents := [("alice", { agent := "alice", status := "active",
                           metadata := fullIdentityMd "/proj", lastSeen := some 0 }),
               ("bob", { agent := "bob", status := "active",
                         metadata := [("client", "cli")], lastSeen := some 0 })] }

/-- Example state: a stored agent record with a `client` metadata key. -/
def exStReg : OrchState :=
  { root := "/proj"
    agents := [("a", { agent := "a", status := "active",
                       metadata := [("client", "x")], lastSeen := some 1 })] }

/-- Example state: one already resolved blocker. -/
def exStBlk : OrchState :=
  { root := "/proj"
    blockers := [{ id := "BLK-1", taskId := "T1", agent := "alice",
                   status := "resolved", resolution := "use flag" }] }

/-- Example state: leader `codex`, a reported task with an open bug and no
report file on disk. -/
def exStDone : OrchState :=
  { root := "/proj"
    rolesLeader := "codex"
    tasks := [{ id := "T1", title := "Build X", owner := "alice", status := "reported" }]
    bugs := [{ id := "B1", sourceTask := "T1", owner := "alice", status := "open" }] }

/-- Example state: one open task, for duplicate-creation scenarios. -/
def exStDup : OrchState :=
  { root := "/proj"
    rolesLeader := "codex"
    policy := { routing := [("backend", "claude_code")] }
    tasks := [{ id := "T1", title := "Build  X", workstream := "Backend",
                owner := "claude_code", status := "in_progress" }] }

/-- Example state: a pending retry entry whose report targets a task that
does not exist, so ingest keeps failing. -/
def exStRetry : OrchState :=
  { root := "/proj"
    rolesLeader := "codex"
    retryQueue := [{ id := "RPTQ-1", status := "pending"
                     report := { taskId := some "T404", agent := some "alice",
                                 commitSha := some "abc", status := some "done",
                                 testSummary := some { command := some "pytest",
                                                       passed := some 3, failed := some 0 } }
                     attempts := 2, nextRetryAt := 0 }] }

/-- Example reported task owned by `alice`. -/
def exTaskCycle : Task :=
  { id := "T1", title := "Build X", workstream := "backend",
    owner := "alice", status := "reported" }

/-- Example report file content for `exTaskCycle`. -/
def exReportCycle : Report :=
  { taskId := some "T1", agent := some "alice", commitSha := some "abc",
    status := some "done",
    testSummary := some { command := some "pytest", passed := some 3, failed := some 0 } }

/-- Example state: leader `codex`, operational agent `alice` owning a
reported task whose report file is on disk, plus events in the log. -/
def exStCycle : OrchState :=
  { root := "/proj"
    rolesLeader := "codex"
    tasks := [exTaskCycle,
              { id := "T2", title := "Build Y", workstream := "backend",
                owner := "alice", status := "assigned" }]
    agents := [("alice", { agent := "alice", status := "active",
                           metadata := fullIdentityMd "/proj", lastSeen := some 0 })]
    reports := [("T1", exReportCycle)]
    events := [some { type := "task.assigned", source := "codex" },
               none,
               some { type := "manager.note", source := "codex",
                      audience := some ["bob"] },
               some { type := "task.claimed", source := "alice" }] }

/-! Helper lemmas about the list combinators of the embedding. -/

theorem lookup_alSet_self {β : Type} (l : List (String × β)) (k : String) (v : β) :
    List.lookup k (alSet l k v) = some v := by
  induction l with
  | nil => simp [alSet, List.lookup]
  | cons p rest ih =>
    obtain ⟨k', v'⟩ := p
    by_cases h : k' = k
    · simp [alSet, h, List.lookup]
    · have hne : (k == k') = false := beq_eq_false_iff_ne.mpr fun hh => h hh.symm
      simp [alSet, h, List.lookup, hne, ih]

theorem length_replaceFirstBy {α : Type} (p : α → Bool) (f : α → α) (l : List α) :
    (replaceFirstBy p f l).length = l.length := by
  induction l with
  | nil => rfl
  | cons x rest ih =>
    by_cases h : p x
    · simp [replaceFirstBy, h]
    · simp [replaceFirstBy, h, ih]

theorem replaceFirstBy_append {α : Type} (p : α → Bool) (f : α → α)
    (pre post : List α) (e : α)
    (hpre : ∀ x ∈ pre, p x = false) (he : p e = true) :
    replaceFirstBy p f (pre ++ e :: post) = pre ++ f e :: post := by
  induction pre with
  | nil => simp [replaceFirstBy, he]
  | cons x rest ih =>
    have hx := hpre x (by simp)
    have ih' := ih fun y hy => hpre y (by simp [hy])
    simp only [List.cons_append, replaceFirstBy, hx, Bool.false_eq_true, if_false]
    exact congrArg (x :: ·) ih'

theorem mem_replaceFirstBy {α : Type} (p : α → Bool) (f : α → α) :
    ∀ (l : List α) (y : α), y ∈ replaceFirstBy p f l →
      y ∈ l ∨ ∃ z ∈ l, p z = true ∧ y = f z := by
  intro l
  induction l with
  | nil => intro y hy; simp [replaceFirstBy] at hy
  | cons x rest ih =>
    intro y hy
    by_cases hx : p x
    · simp only [replaceFirstBy, hx, if_true, List.mem_cons] at hy
      rcases hy with rfl | hy
      · exact Or.inr ⟨x, by simp, hx, rfl⟩
      · exact Or.inl (by simp [hy])
    · simp only [replaceFirstBy, hx, Bool.false_eq_true, if_false, List.mem_cons] at hy
      rcases hy with rfl | hy
      · exact Or.inl (by simp)
      · rcases ih y hy with h | ⟨z, hz, hpz, rfl⟩
        · exact Or.inl (by simp [h])
        · exact Or.inr ⟨z, by simp [hz], hpz, rfl⟩

theorem pairwise_replaceFirstBy {α : Type} {R : α → α → Prop} (p : α → Bool) (f : α → α)
    (hf : ∀ x, p x = true → (∀ y, R x y → R (f x) y) ∧ (∀ y, R y x → R y (f x))) :
    ∀ l : List α, l.Pairwise R → (replaceFirstBy p f l).Pairwise R := by
  intro l
  induction l with
  | nil => intro _; simp [replaceFirstBy]
  | cons x rest ih =>
    intro hl
    rw [List.pairwise_cons] at hl
    by_cases hx : p x
    · simp only [replaceFirstBy, hx, if_true]
      rw [List.pairwise_cons]
      exact ⟨fun y hy => (hf x hx).1 y (hl.1 y hy), hl.2⟩
    · simp only [replaceFirstBy, hx, Bool.false_eq_true, if_false]
      rw [List.pairwise_cons]
      refine ⟨fun y hy => ?_, ih hl.2⟩
      rcases mem_replaceFirstBy p f rest y hy with hmem | ⟨z, hz, hpz, rfl⟩
      · exact hl.1 y hmem
      · exact (hf z hpz).2 x (hl.1 z hz)

/-- C10: `resolve_blocker` is idempotent on already-resolved blockers — it
returns the stored blocker record unchanged, writes neither the blockers
nor the tasks document, and emits no event (the state is returned intact,
event log included). -/
theorem resolveBlocker_idempotent_on_resolved
    (st : OrchState) (blockerId resolution source : String) (now : Int) (b : Blocker)
    (hfind : st.blockers.find? (fun x => x.id == blockerId) = some b)
    (hres : b.status = "resolved") :
    resolveBlocker st blockerId resolution source now = .ok (b, st) := by
  unfold resolveBlocker
  rw [hfind]
  simp only [hres]
  rfl

/-- Witness for C10 at a concrete already-resolved blocker. -/
theorem resolveBlocker_idempotent_on_resolved_witness :
    resolveBlocker exStBlk "BLK-1" "retry" "codex" 5 =
      .ok ({ id := "BLK-1", taskId := "T1", agent := "alice",
             status := "resolved", resolution := "use flag" }, exStBlk) :=
  resolveBlocker_idempotent_on_resolved exStBlk "BLK-1" "retry" "codex" 5
    { id := "BLK-1", taskId := "T1", agent := "alice",
      status := "resolved", resolution := "use flag" }
    (by decide) (by decide)

/-- C9 (amended): `register` stores the supplied metadata in place of the
previous metadata whenever the supplied object is non-empty (keeping the
stored metadata only when it is empty or absent), sets status to active,
stamps `last_seen`, stores the entry, and emits `agent.registered`;
`heartbeat` does the same but shallow-merges the supplied metadata into the
stored metadata and emits `agent.heartbeat`. -/
theorem register_replaces_heartbeat_merges
    (st : OrchState) (agent : String) (md : Metadata) (now : Int) :
    ((registerAgent st agent md now).1.agent = agent ∧
     (registerAgent st agent md now).1.status = "active" ∧
     (registerAgent st agent md now).1.lastSeen = some now ∧
     (registerAgent st agent md now).1.metadata =
       (if md.isEmpty then ((List.lookup agent st.agents).getD {}).metadata else md) ∧
     List.lookup agent (registerAgent st agent md now).2.agents =
       some (registerAgent st agent md now).1 ∧
     (registerAgent st agent md now).2.events = st.events ++
       [some { type := "agent.registered", source := agent, data := [("agent", agent)] }]) ∧
    ((heartbeat st agent md now).1.status = "active" ∧
     (heartbeat st agent md now).1.lastSeen = some now ∧
     (heartbeat st agent md now).1.metadata =
       (if md.isEmpty then
          ((List.lookup agent st.agents).getD { agent := agent, metadata := [] }).metadata
        else
          dictUpdate
            ((List.lookup agent st.agents).getD { agent := agent, metadata := [] }).metadata
            md) ∧
     List.lookup agent (heartbeat st agent md now).2.agents =
       some (heartbeat st agent md now).1 ∧
     (heartbeat st agent md now).2.events = st.events ++
       [some { type := "agent.heartbeat", source := agent, data := [("agent", agent)] }]) := by
  refine ⟨⟨rfl, rfl, rfl, rfl, ?_, rfl⟩, ⟨rfl, rfl, rfl, ?_, rfl⟩⟩
  · simpa [registerAgent, emitEvent] using
      lookup_alSet_self st.agents agent (registerAgent st agent md now).1
  · simpa [heartbeat, emitEvent] using
      lookup_alSet_self st.agents agent (heartbeat st agent md now).1

/-- Counterexample for C9 as stated: `register` does not merge — a stored
metadata key (`client`) that the new registration does not supply is
dropped from both the returned entry and the stored record, instead of
being preserved. -/
theorem register_drops_unsupplied_metadata_keys :
    List.lookup "client" (((List.lookup "a" exStReg.agents).getD {}).metadata) = some "x" ∧
    List.lookup "client" ((registerAgent exStReg "a" [("model", "y")] 5).1.metadata) = none ∧
    List.lookup "client"
      (((List.lookup "a" (registerAgent exStReg "a" [("model", "y")] 5).2.agents).getD
        {}).metadata) = none := by
  decide

/-- C4 (amended): an agent whose registered metadata misses one of the nine
identity keys can never successfully `claim_next_task` or `submit_report`
(`ingest_report`), regardless of heartbeat freshness; `raise_blocker`,
however, performs no operational check and succeeds whenever the caller
matches the task owner. -/
theorem incomplete_identity_blocks_claim_and_report
    (st : OrchState) (agent : String) (entry : AgentEntry)
    (hlook : List.lookup agent st.agents = some entry)
    (hmiss : identityComplete entry.metadata = false) :
    (∀ now : Int, exceptOk (claimNextTask st agent now) = false) ∧
    (∀ (r : Report) (now : Int), r.agent = some agent →
      exceptOk (ingestReport st r now).1 = false) ∧
    (∀ (taskId question severity blockerId : String) (options : List String)
        (now : Int) (task : Task),
      st.tasks.find? (fun t => t.id == taskId) = some task → task.owner = agent →
      exceptOk (raiseBlocker st taskId agent question options severity blockerId now) = true) := by
  have hop : agentIsOperational st agent = false := by
    unfold agentIsOperational
    rw [hlook]
    by_cases hb : pyStrip agent == ""
    · simp [hb]
    · simp [hb, hmiss]
  refine ⟨?_, ?_, ?_⟩
  · intro now
    unfold claimNextTask
    rw [hop]
    rfl
  · intro r now hagent
    unfold ingestReport
    by_cases hmissF : r.taskId.isNone || r.agent.isNone || r.commitSha.isNone ||
        r.testSummary.isNone || r.status.isNone
    · simp [hmissF, exceptOk]
    · cases hv : validateReportPayload r with
      | error e => simp [hmissF, hv, exceptOk]
      | ok u =>
        have : r.agent.getD "" = agent := by rw [hagent]; rfl
        simp [hmissF, hv, this, hop, exceptOk]
  · intro taskId question severity blockerId options now task hfind howner
    unfold raiseBlocker
    simp only [hfind, howner, bne_self_eq_false]
    rfl

/-- Witness for C4 (amended) at a concrete state: `bob` misses identity
keys, cannot claim or report, but raises a blocker on his own task. -/
theorem incomplete_identity_blocks_claim_and_report_witness :
    exceptOk (claimNextTask exStGate "bob" 10) = false ∧
    exceptOk (ingestReport exStGate
      { taskId := some "T1", agent := some "bob", commitSha := some "abc",
        status := some "done",
        testSummary := some { command := some "pytest", passed := some 1, failed := some 0 } }
      10).1 = false ∧
    exceptOk (raiseBlocker exStGate "T1" "bob" "need access" [] "medium" "BLK-9" 10) = true := by
  obtain ⟨h1, h2, h3⟩ := incomplete_identity_blocks_claim_and_report exStGate "bob"
    { agent := "bob", status := "active", metadata := [("client", "cli")], lastSeen := some 0 }
    (by decide) (by decide)
  exact ⟨h1 10,
    h2 { taskId := some "T1", agent := some "bob", commitSha := some "abc",
         status := some "done",
         testSummary := some { command := some "pytest", passed := some 1, failed := some 0 } }
      10 rfl,
    h3 "T1" "need access" "medium" "BLK-9" [] 10 exTaskT1 (by decide) (by decide)⟩

/-- Counterexample for C4 as stated: `raise_blocker` succeeds for an agent
whose metadata misses identity keys (no operational gate exists on that
path), contradicting the claim that it can never succeed. -/
theorem raise_blocker_succeeds_without_identity :
    identityComplete (((List.lookup "bob" exStGate.agents).getD {}).metadata) = false ∧
    exceptOk (raiseBlocker exStGate "T1" "bob" "need access" [] "medium" "BLK-9" 10) = true := by
  decide

/-- C8 (amended): the leader may update any existing task to any status
(`done` and `reported` included); a non-leader caller that is not
operational is rejected at the gate whatever status it requests; a
non-leader caller is forbidden from transitioning into `done` or
`reported`; and an operational non-leader caller requesting another
status must equal the task's owner or the call fails with
`unauthorized_status_update`. -/
theorem setTaskStatus_authority (st : OrchState) (taskId status note : String) (now : Int) :
    (∀ task, st.tasks.find? (fun t => t.id == taskId) = some task →
      ∃ st', setTaskStatus st taskId status (managerAgent st) note now =
        .ok ({ task with status := status, updatedAt := now }, st')) ∧
    (∀ source, source ≠ managerAgent st → agentIsOperational st source = false →
      setTaskStatus st taskId status source note now =
        .error ("agent_not_operational_or_wrong_project: " ++ source)) ∧
    (∀ source, source ≠ managerAgent st →
      (pyLower (pyStrip status) = "done" ∨ pyLower (pyStrip status) = "reported") →
      exceptOk (setTaskStatus st taskId status source note now) = false) ∧
    (∀ source task, source ≠ managerAgent st → agentIsOperational st source = true →
      pyLower (pyStrip status) ≠ "done" → pyLower (pyStrip status) ≠ "reported" →
      st.tasks.find? (fun t => t.id == taskId) = some task → source ≠ task.owner →
      setTaskStatus st taskId status source note now =
        .error ("unauthorized_status_update: source=" ++ source ++ ", task_owner="
          ++ task.owner ++ ", current_leader=" ++ managerAgent st)) := by
  refine ⟨?_, ?_, ?_, ?_⟩
  · intro task hfind
    unfold setTaskStatus
    simp only [bne_self_eq_false, Bool.and_false, Bool.false_and, Bool.false_eq_true,
      if_false, hfind]
    exact ⟨_, rfl⟩
  · intro source hs hopf
    have hsb : (source != managerAgent st) = true := bne_iff_ne.mpr hs
    unfold setTaskStatus
    simp only [hsb, hopf, Bool.not_false, Bool.and_true, if_true]
  · intro source hs hdone
    have hsb : (source != managerAgent st) = true := bne_iff_ne.mpr hs
    have hd : (pyLower (pyStrip status) == "done"
        || pyLower (pyStrip status) == "reported") = true := by
      rcases hdone with h | h <;> simp [h]
    unfold setTaskStatus
    by_cases hop : agentIsOperational st source
    · simp only [hsb, hop, Bool.not_true, Bool.and_false, Bool.false_eq_true, if_false,
        hd, Bool.true_and, Bool.and_true, if_true]
      rfl
    · have hopf : agentIsOperational st source = false := by simpa using hop
      simp only [hsb, hopf, Bool.not_false, Bool.and_true, if_true]
      rfl
  · intro source task hs hop hnd hnr hfind howner
    have hsb : (source != managerAgent st) = true := bne_iff_ne.mpr hs
    have hnd' : (pyLower (pyStrip status) == "done") = false := beq_eq_false_iff_ne.mpr hnd
    have hnr' : (pyLower (pyStrip status) == "reported") = false := beq_eq_false_iff_ne.mpr hnr
    have hob : (source != task.owner) = true := bne_iff_ne.mpr howner
    unfold setTaskStatus
    rw [hsb, hop]
    simp only [Bool.not_true, Bool.and_false, Bool.false_eq_true, if_false,
      hnd', hnr', Bool.or_self, Bool.false_and, Bool.false_or, hfind, hob,
      Bool.true_and, bne_self_eq_false]
    rw [hsb]
    simp only [Bool.and_true, if_true]

/-- Witness for C8 (amended) at a concrete state: the leader sets a task
`done`; the identity-incomplete non-leader `bob` is rejected at the
operational gate even for an ordinary status; a non-leader cannot set
`done`; an operational non-leader touching someone else's task gets
`unauthorized_status_update`. -/
theorem setTaskStatus_authority_witness :
    (∃ st', setTaskStatus exStGate "T1" "done" (managerAgent exStGate) "" 7 =
      .ok ({ exTaskT1 with status := "done", updatedAt := 7 }, st')) ∧
    setTaskStatus exStGate "T1" "blocked" "bob" "" 7 =
      .error "agent_not_operational_or_wrong_project: bob" ∧
    exceptOk (setTaskStatus exStGate "T1" "done" "alice" "" 7) = false ∧
    setTaskStatus exStGate "T1" "blocked" "alice" "" 7 =
      .error ("unauthorized_status_update: source=alice, task_owner="
        ++ exTaskT1.owner ++ ", current_leader=" ++ managerAgent exStGate) := by
  obtain ⟨h1, h2, h3, h4⟩ := setTaskStatus_authority exStGate "T1" "done" "" 7
  obtain ⟨h1b, h2b, h3b, h4b⟩ := setTaskStatus_authority exStGate "T1" "blocked" "" 7
  exact ⟨h1 exTaskT1 (by decide),
    h2b "bob" (by decide) (by decide),
    h3 "alice" (by decide) (Or.inl (by decide)),
    h4b "alice" exTaskT1 (by decide) (by decide) (by decide) (by decide)
      (by decide) (by decide)⟩

/-- Counterexample for C8 as stated: transitioning a task into `done`
through the free-form status update is not forbidden — the leader does it
successfully. -/
theorem leader_sets_done_via_status_update :
    exceptOk (setTaskStatus exStGate "T1" "done" "codex" "" 7) = true ∧
    (exceptToOption (setTaskStatus exStGate "T1" "done" "codex" "" 7)).map
      (fun p => p.2.tasks.map fun t => (t.id, t.status)) =
      some [("T1", "done"), ("T2", "assigned")] := by
  decide

/-- Bugs reachable from `closeBugsGo` with all of the task's bugs closed in
the accumulator stay closed for that task in the final document. -/
theorem closeBugsGo_all_closed (taskId note : String) (now : Int) :
    ∀ (bugs : List Bug) (st : OrchState) (acc : List Bug),
      (∀ b ∈ acc, b.sourceTask = taskId → b.status = "closed") →
      ∀ b ∈ (closeBugsGo taskId note now bugs st acc).bugs,
        b.sourceTask = taskId → b.status = "closed" := by
  intro bugs
  induction bugs with
  | nil =>
    intro st acc hacc b hb hsrc
    simp only [closeBugsGo, List.mem_reverse] at hb
    exact hacc b hb hsrc
  | cons bug rest ih =>
    intro st acc hacc b hb hsrc
    by_cases hc : (bug.sourceTask == taskId && bug.status != "closed") = true
    · simp only [closeBugsGo, hc, if_true] at hb
      refine ih _ _ ?_ b hb hsrc
      intro x hx hxsrc
      rcases List.mem_cons.mp hx with rfl | hx'
      · rfl
      · exact hacc x hx' hxsrc
    · have hcf : (bug.sourceTask == taskId && bug.status != "closed") = false := by
        simpa using hc
      simp only [closeBugsGo, hcf, Bool.false_eq_true, if_false] at hb
      refine ih _ _ ?_ b hb hsrc
      intro x hx hxsrc
      rcases List.mem_cons.mp hx with rfl | hx'
      · rcases Bool.and_eq_false_iff.mp hcf with h | h
        · exact absurd (beq_iff_eq.mpr hxsrc) (by simp [h])
        · simpa using h
      · exact hacc x hx' hxsrc

/-- C3 (amended): when a task passes validation through `validate_task`,
every bug with `source_task` equal to that task is closed in the resulting
bugs document.  The full done-task invariant of the claim does not hold:
the leader can also reach `done` through `set_task_status`, which neither
closes bugs nor requires a report file, and `validate_task` itself never
checks that a report file exists. -/
theorem validate_pass_closes_bugs
    (st st₂ : OrchState) (taskId notes source bugId : String) (now : Int)
    (h : validateTask st taskId true notes source bugId now = .ok st₂) :
    ∀ bug ∈ st₂.bugs, bug.sourceTask = taskId → bug.status = "closed" := by
  unfold validateTask at h
  cases hsb : source != managerAgent st with
  | true => simp [hsb] at h
  | false =>
    simp only [hsb, Bool.false_eq_true, if_false] at h
    cases hfind : st.tasks.find? (fun t => t.id == taskId) with
    | none => rw [hfind] at h; simp at h
    | some task =>
      rw [hfind] at h
      simp only [if_true] at h
      injection h with h2
      subst h2
      simp only [emitEvent]
      unfold closeBugsForTask
      exact closeBugsGo_all_closed taskId notes now _ _ [] (by intro x hx; simp at hx)

/-- Witness for C3 (amended): a concrete passing validation closes the open
bug of the task. -/
theorem validate_pass_closes_bugs_witness :
    ∃ st₂, validateTask exStDone "T1" true "ok" "codex" "BUG-1" 9 = .ok st₂ ∧
      ∀ bug ∈ st₂.bugs, bug.sourceTask = "T1" → bug.status = "closed" := by
  cases hv : validateTask exStDone "T1" true "ok" "codex" "BUG-1" 9 with
  | error e =>
    have hok : exceptOk (validateTask exStDone "T1" true "ok" "codex" "BUG-1" 9) = true := by
      decide
    rw [hv] at hok
    simp [exceptOk] at hok
  | ok st₂ =>
    exact ⟨st₂, rfl, validate_pass_closes_bugs exStDone st₂ "T1" "ok" "codex" "BUG-1" 9 hv⟩

theorem refreshAgentPresence_retryQueue (st : OrchState) (a : String) (now : Int) :
    (refreshAgentPresence st a now).retryQueue = st.retryQueue := by
  unfold refreshAgentPresence
  split <;> rfl

theorem ingestReport_retryQueue (st : OrchState) (r : Report) (now : Int) :
    (ingestReport st r now).2.retryQueue = st.retryQueue := by
  unfold ingestReport
  split
  · rfl
  split
  · rfl
  dsimp only
  split
  · rfl
  split
  · simp [refreshAgentPresence_retryQueue]
  split
  · simp [refreshAgentPresence_retryQueue]
  simp [emitEvent, refreshAgentPresence_retryQueue]

/-- C6: when processing a due pending retry entry fails again, the entry's
attempts counter is incremented by one, `next_retry_at` becomes now plus
`min(max_backoff, base_backoff * 2^(attempts-1))` (with `attempts` the new
counter), and the entry becomes `failed` once attempts reach
`max_attempts`, remaining `pending` otherwise. -/
theorem retry_failure_updates_entry
    (st : OrchState) (item qe : RetryEntry) (pre post : List RetryEntry) (err : String)
    (maxAttempts baseBackoff maxBackoff now : Int)
    (hq : st.retryQueue = pre ++ qe :: post)
    (hpre : ∀ x ∈ pre, (x.id == item.id) = false)
    (hid : qe.id = item.id)
    (hpend : qe.status = "pending")
    (hfail : (ingestReport st item.report now).1 = .error err)
    (hbase : 1 ≤ baseBackoff) (hmaxa : 1 ≤ maxAttempts) (hatt : 0 ≤ item.attempts) :
    (processOneRetry st item maxAttempts baseBackoff maxBackoff now).retryQueue =
      pre ++ { qe with
        attempts := item.attempts + 1
        lastError := err
        updatedAt := now
        nextRetryAt := now + min maxBackoff (baseBackoff * 2 ^ item.attempts.toNat)
        status := if maxAttempts ≤ item.attempts + 1 then "failed" else "pending" } :: post := by
  have hqr := ingestReport_retryQueue st item.report now
  cases hig : ingestReport st item.report now with
  | mk fst snd =>
    rw [hig] at hfail hqr
    cases fst with
    | ok v => exact absurd hfail (by simp)
    | error e =>
      have he : e = err := by simpa using hfail
      subst he
      unfold processOneRetry
      rw [hig]
      unfold applyRetryFailure
      simp only [emitEvent]
      rw [hqr, hq]
      rw [replaceFirstBy_append _ _ pre post qe hpre (by simp [hid])]
      have hback : retryBackoffSeconds baseBackoff maxBackoff (item.attempts + 1) =
          min maxBackoff (baseBackoff * 2 ^ item.attempts.toNat) := by
        unfold retryBackoffSeconds
        rw [add_sub_cancel_right, max_eq_right hatt, max_eq_right hbase]
      simp [hback, hpend, max_eq_right hmaxa, ge_iff_le]

/-- Witness for C6: a pending entry with two previous attempts whose ingest
fails again is rescheduled with incremented attempts and exponential
backoff. -/
theorem retry_failure_updates_entry_witness :
    (processOneRetry exStRetry
      { id := "RPTQ-1", status := "pending"
        report := { taskId := some "T404", agent := some "alice",
                    commitSha := some "abc", status := some "done",
                    testSummary := some { command := some "pytest",
                                          passed := some 3, failed := some 0 } }
        attempts := 2, nextRetryAt := 0 }
      20 15 300 100).retryQueue =
    [{ id := "RPTQ-1", status := "pending"
       report := { taskId := some "T404", agent := some "alice",
                   commitSha := some "abc", status := some "done",
                   testSummary := some { command := some "pytest",
                                         passed := some 3, failed := some 0 } }
       attempts := 3, lastError := "agent_not_operational_or_wrong_project: alice"
       updatedAt := 100, nextRetryAt := 160 }] := by
  have h := retry_failure_updates_entry exStRetry
    { id := "RPTQ-1", status := "pending"
      report := { taskId := some "T404", agent := some "alice",
                  commitSha := some "abc", status := some "done",
                  testSummary := some { command := some "pytest",
                                        passed := some 3, failed := some 0 } }
      attempts := 2, nextRetryAt := 0 }
    { id := "RPTQ-1", status := "pending"
      report := { taskId := some "T404", agent := some "alice",
                  commitSha := some "abc", status := some "done",
                  testSummary := some { command := some "pytest",
                                        passed := some 3, failed := some 0 } }
      attempts := 2, nextRetryAt := 0 }
    [] [] "agent_not_operational_or_wrong_project: alice" 20 15 300 100
    (by decide) (by intro x hx; simp at hx) (by decide) (by decide) rfl
    (by decide) (by decide) (by decide)
  simpa using h

/-- C7 (amended): no operation ever creates two pending retry entries for
the same present `(task_id, agent)` report pair: `enqueue_report_retry`
updates the matching pending entry in place (same queue length, updated
payload and error) rather than appending, and the retry-processing updates
preserve the invariant.  Reports without a present `task_id`/`agent` are
compared raw against the stringified incoming values and escape this
deduplication. -/
theorem retry_queue_pending_dedup :
    (∀ (st : OrchState) (r : Report) (err entryId : String) (now : Int),
      NoDupPendingPairs st.retryQueue →
      NoDupPendingPairs (enqueueReportRetry st r err entryId now).2.retryQueue) ∧
    (∀ (st : OrchState) (r : Report) (err entryId : String) (now : Int) (ex : RetryEntry),
      st.retryQueue.find? (fun item =>
        item.status == "pending" && item.report.taskId == some (r.taskId.getD "") &&
          item.report.agent == some (r.agent.getD "")) = some ex →
      ((enqueueReportRetry st r err entryId now).2.retryQueue.length =
        st.retryQueue.length ∧
       (enqueueReportRetry st r err entryId now).1 =
        { ex with report := r, lastError := err, updatedAt := now })) ∧
    (∀ (st : OrchState) (queueId err tid ag : String)
        (attemptsPrev maxAttempts baseBackoff maxBackoff now : Int),
      NoDupPendingPairs st.retryQueue →
      NoDupPendingPairs (applyRetryFailure st queueId attemptsPrev err tid ag
        maxAttempts baseBackoff maxBackoff now).retryQueue) ∧
    (∀ (st : OrchState) (queueId tid ag : String) (now : Int),
      NoDupPendingPairs st.retryQueue →
      NoDupPendingPairs (markRetrySubmitted st queueId tid ag now).retryQueue) := by
  refine ⟨?_, ?_, ?_, ?_⟩
  · intro st r err entryId now hnd
    unfold NoDupPendingPairs at hnd ⊢
    unfold enqueueReportRetry
    cases hfind : st.retryQueue.find? (fun item =>
        item.status == "pending" && item.report.taskId == some (r.taskId.getD "") &&
          item.report.agent == some (r.agent.getD "")) with
    | some ex =>
      simp only [hfind, emitEvent]
      apply pairwise_replaceFirstBy _ _ _ _ hnd
      intro x hx
      simp only [Bool.and_eq_true, beq_iff_eq] at hx
      obtain ⟨⟨hxs, hxt⟩, hxa⟩ := hx
      constructor
      · intro y hnc hcl
        apply hnc
        obtain ⟨h1, h2, h3, h4, h5, h6⟩ := hcl
        obtain ⟨t, ht⟩ := Option.isSome_iff_exists.mp h3
        obtain ⟨a, ha⟩ := Option.isSome_iff_exists.mp h4
        have hxt' : x.report.taskId = r.taskId := by rw [hxt, ht]; simp [ht]
        have hxa' : x.report.agent = r.agent := by rw [hxa, ha]; simp [ha]
        exact ⟨hxs, h2, by rw [hxt', ht]; rfl, by rw [hxa', ha]; rfl,
          by rw [hxt']; exact h5, by rw [hxa']; exact h6⟩
      · intro y hnc hcl
        apply hnc
        obtain ⟨h1, h2, h3, h4, h5, h6⟩ := hcl
        obtain ⟨t, ht⟩ := Option.isSome_iff_exists.mp h3
        have ht' : r.taskId = some t := by
          have := h5; rw [ht] at this; exact this.symm
        obtain ⟨a, ha⟩ := Option.isSome_iff_exists.mp h4
        have ha' : r.agent = some a := by
          have := h6; rw [ha] at this; exact this.symm
        have hxt' : x.report.taskId = r.taskId := by rw [hxt, ht']; simp [ht']
        have hxa' : x.report.agent = r.agent := by rw [hxa, ha']; simp [ha']
        refine ⟨h1, hxs, h3, h4, ?_, ?_⟩
        · rw [ht, ← ht', ← hxt']
        · rw [ha, ← ha', ← hxa']
    | none =>
      simp only [hfind, emitEvent]
      rw [List.pairwise_append]
      refine ⟨hnd, List.pairwise_singleton _ _, ?_⟩
      intro a ha b hb
      simp only [List.mem_singleton] at hb
      subst hb
      intro hcl
      obtain ⟨h1, h2, h3, h4, h5, h6⟩ := hcl
      obtain ⟨t, ht⟩ := Option.isSome_iff_exists.mp h3
      obtain ⟨ag, hag⟩ := Option.isSome_iff_exists.mp h4
      have hmatch := List.find?_eq_none.mp hfind a ha
      apply hmatch
      simp only [Bool.and_eq_true, beq_iff_eq]
      have h5' : r.taskId = some t := by rw [← h5, ht]
      have h6' : r.agent = some ag := by rw [← h6, hag]
      refine ⟨⟨h1, ?_⟩, ?_⟩
      · rw [ht, h5']; rfl
      · rw [hag, h6']; rfl
  · intro st r err entryId now ex hfind
    unfold enqueueReportRetry
    simp only [hfind]
    exact ⟨length_replaceFirstBy _ _ _, trivial⟩
  · intro st queueId err tid ag attemptsPrev maxAttempts baseBackoff maxBackoff now hnd
    unfold NoDupPendingPairs at hnd ⊢
    unfold applyRetryFailure
    simp only [emitEvent]
    apply pairwise_replaceFirstBy _ _ _ _ hnd
    intro x _
    constructor
    · intro y hnc hcl
      apply hnc
      obtain ⟨h1, hrest⟩ := hcl
      split at h1
      · simp at h1
      · exact ⟨h1, hrest⟩
    · intro y hnc hcl
      apply hnc
      obtain ⟨h1, h2, hrest⟩ := hcl
      split at h2
      · simp at h2
      · exact ⟨h1, h2, hrest⟩
  · intro st queueId tid ag now hnd
    unfold NoDupPendingPairs at hnd ⊢
    unfold markRetrySubmitted
    simp only [emitEvent]
    apply pairwise_replaceFirstBy _ _ _ _ hnd
    intro x _
    constructor
    · intro y _ hcl
      have h1 := hcl.1
      simp at h1
    · intro y _ hcl
      have h2 := hcl.2.1
      simp at h2

/-- Witness for C7 (amended): enqueueing a fresh report for the pair
already pending updates in place and keeps the invariant. -/
theorem retry_queue_pending_dedup_witness :
    NoDupPendingPairs (enqueueReportRetry exStRetry
      { taskId := some "T404", agent := some "alice", commitSha := some "def",
        status := some "done" } "still failing" "RPTQ-9" 50).2.retryQueue ∧
    (enqueueReportRetry exStRetry
      { taskId := some "T404", agent := some "alice", commitSha := some "def",
        status := some "done" } "still failing" "RPTQ-9" 50).2.retryQueue.length =
      exStRetry.retryQueue.length := by
  obtain ⟨h1, h2, h3, h4⟩ := retry_queue_pending_dedup
  refine ⟨h1 exStRetry
      { taskId := some "T404", agent := some "alice", commitSha := some "def",
        status := some "done" } "still failing" "RPTQ-9" 50 ?_, ?_⟩
  · exact List.pairwise_singleton _ _
  · exact (h2 exStRetry
      { taskId := some "T404", agent := some "alice", commitSha := some "def",
        status := some "done" } "still failing" "RPTQ-9" 50 _ (by rfl)).1

/-- Counterexample for C7 as stated: two enqueued reports that lack a
`task_id` (compared raw against the stringified default) are both kept as
pending entries with the same absent `task_id` and the same agent, so the
queue holds two pending entries for one `(task_id, agent)` pair. -/
theorem enqueue_missing_task_id_duplicates_pending :
    ((enqueueReportRetry
        (enqueueReportRetry { root := "/proj" }
          { agent := some "alice", commitSha := some "abc" }
          "Task not found: None" "RPTQ-1" 1).2
        { agent := some "alice", commitSha := some "abc" }
        "Task not found: None" "RPTQ-2" 2).2.retryQueue.map
      fun e => (e.status, e.report.taskId, e.report.agent)) =
    [("pending", none, some "alice"), ("pending", none, some "alice")] := by
  decide

theorem find?_id_isSome_of_mem_map (l : List Task) (x : String)
    (h : x ∈ l.map fun t => t.id) : (l.find? fun t => t.id == x).isSome := by
  rw [List.find?_isSome]
  obtain ⟨t, ht, rfl⟩ := List.mem_map.mp h
  exact ⟨t, ht, by simp⟩

theorem map_id_replaceFirstBy (p : Task → Bool) (f : Task → Task)
    (hf : ∀ t, (f t).id = t.id) (l : List Task) :
    (replaceFirstBy p f l).map (fun t => t.id) = l.map fun t => t.id := by
  induction l with
  | nil => rfl
  | cons y rest ih =>
    by_cases hy : p y
    · simp [replaceFirstBy, hy, hf]
    · simp [replaceFirstBy, hy, ih]

theorem find?_id_replaceFirstBy_ne (tid x : String) (f : Task → Task)
    (hf : ∀ t, (f t).id = t.id) (hne : x ≠ tid) (l : List Task) :
    (replaceFirstBy (fun t => t.id == tid) f l).find? (fun t => t.id == x) =
      l.find? fun t => t.id == x := by
  induction l with
  | nil => rfl
  | cons y rest ih =>
    by_cases hy : (y.id == tid) = true
    · have hytid : y.id = tid := beq_iff_eq.mp hy
      have h1 : ((f y).id == x) = false := by
        rw [hf, hytid]; exact beq_eq_false_iff_ne.mpr fun he => hne he.symm
      have h2 : (y.id == x) = false := by
        rw [hytid]; exact beq_eq_false_iff_ne.mpr fun he => hne he.symm
      simp [replaceFirstBy, hy, List.find?_cons_of_neg, h1, h2]
    · by_cases hyx : (y.id == x) = true
      · simp [replaceFirstBy, hy, List.find?_cons_of_pos, hyx]
      · simp [replaceFirstBy, hy, List.find?_cons_of_neg, hyx, ih]

theorem find?_id_replaceFirstBy_self (tid : String) (f : Task → Task)
    (hf : ∀ t, (f t).id = t.id) (l : List Task) :
    (replaceFirstBy (fun t => t.id == tid) f l).find? (fun t => t.id == tid) =
      (l.find? fun t => t.id == tid).map f := by
  induction l with
  | nil => rfl
  | cons y rest ih =>
    by_cases hy : (y.id == tid) = true
    · have hfy : ((f y).id == tid) = true := by rw [hf]; exact hy
      simp [replaceFirstBy, hy, List.find?_cons_of_pos, hfy]
    · simp [replaceFirstBy, hy, List.find?_cons_of_neg, ih]

theorem find?_id_of_mem_nodup (l : List Task) (t : Task)
    (hmem : t ∈ l) (hnodup : (l.map fun u => u.id).Nodup) :
    l.find? (fun u => u.id == t.id) = some t := by
  induction l with
  | nil => simp at hmem
  | cons y rest ih =>
    rw [List.map_cons, List.nodup_cons] at hnodup
    rcases List.mem_cons.mp hmem with rfl | hmem'
    · exact List.find?_cons_of_pos _ (by simp)
    · have hy : (y.id == t.id) = false := by
        have hin : t.id ∈ rest.map fun u => u.id := List.mem_map.mpr ⟨t, hmem', rfl⟩
        exact beq_eq_false_iff_ne.mpr fun he => hnodup.1 (he ▸ hin)
      rw [List.find?_cons_of_neg _ (by simp [hy])]
      exact ih hmem' hnodup.2

theorem closeBugsGo_frame (taskId note : String) (now : Int) :
    ∀ (bugs : List Bug) (st : OrchState) (acc : List Bug),
      (closeBugsGo taskId note now bugs st acc).tasks = st.tasks ∧
      (closeBugsGo taskId note now bugs st acc).reports = st.reports ∧
      (closeBugsGo taskId note now bugs st acc).rolesLeader = st.rolesLeader ∧
      (closeBugsGo taskId note now bugs st acc).policy = st.policy := by
  intro bugs
  induction bugs with
  | nil => intro st acc; exact ⟨rfl, rfl, rfl, rfl⟩
  | cons bug rest ih =>
    intro st acc
    by_cases hc : (bug.sourceTask == taskId && bug.status != "closed") = true
    · simp only [closeBugsGo, hc, if_true]
      exact ih _ _
    · have hcf : (bug.sourceTask == taskId && bug.status != "closed") = false := by
        simpa using hc
      simp only [closeBugsGo, hcf, Bool.false_eq_true, if_false]
      exact ih _ _

theorem validateTask_ok (st : OrchState) (taskId : String) (passed : Bool)
    (notes bugId : String) (now : Int) (task : Task)
    (hfind : st.tasks.find? (fun t => t.id == taskId) = some task) :
    ∃ st', validateTask st taskId passed notes (managerAgent st) bugId now = .ok st' ∧
      st'.tasks = replaceFirstBy (fun t => t.id == taskId)
        (fun t => { t with
          status := if passed then "done" else "bug_open"
          updatedAt := now }) st.tasks ∧
      st'.reports = st.reports ∧ st'.rolesLeader = st.rolesLeader ∧
      st'.policy = st.policy := by
  unfold validateTask
  simp only [bne_self_eq_false, Bool.false_eq_true, if_false, hfind]
  cases passed
  · exact ⟨_, rfl, rfl, rfl, rfl, rfl⟩
  · refine ⟨_, rfl, ?_, ?_, ?_, ?_⟩
    · simpa [emitEvent, closeBugsForTask] using
        (closeBugsGo_frame taskId notes now _ _ []).1
    · simpa [emitEvent, closeBugsForTask] using
        (closeBugsGo_frame taskId notes now _ _ []).2.1
    · simpa [emitEvent, closeBugsForTask] using
        (closeBugsGo_frame taskId notes now _ _ []).2.2.1
    · simpa [emitEvent, closeBugsForTask] using
        (closeBugsGo_frame taskId notes now _ _ []).2.2.2

theorem managerValidateLoop_ok (strict : Bool) (now : Int) :
    ∀ (snapshot : List Task) (bugIds : List String) (acc : List (String × Bool))
      (st : OrchState),
      (∀ u ∈ snapshot, u.id ∈ st.tasks.map fun t => t.id) →
      ∃ processed st',
        managerValidateLoop strict now snapshot bugIds acc st = .ok (processed, st') ∧
        st'.reports = st.reports ∧
        st'.tasks.map (fun t => t.id) = st.tasks.map (fun t => t.id) ∧
        (∀ pr ∈ acc, pr ∈ processed) ∧
        (∀ x : String, (∀ u ∈ snapshot, u.id ≠ x) →
          st'.tasks.find? (fun t => t.id == x) = st.tasks.find? fun t => t.id == x) := by
  intro snapshot
  induction snapshot with
  | nil =>
    intro bugIds acc st _
    exact ⟨acc.reverse, st, rfl, rfl, rfl,
      fun pr hpr => List.mem_reverse.mpr hpr, fun x _ => rfl⟩
  | cons task rest ih =>
    intro bugIds acc st hmem
    by_cases hrep : (task.status != "reported") = true
    · obtain ⟨processed, st', heq, hreports, hmap, hacc, hunt⟩ :=
        ih bugIds acc st fun u hu => hmem u (List.mem_cons_of_mem _ hu)
      refine ⟨processed, st', ?_, hreports, hmap, hacc, ?_⟩
      · simp only [managerValidateLoop, hrep, if_true]
        exact heq
      · intro x hx
        exact hunt x fun u hu => hx u (List.mem_cons_of_mem _ hu)
    · have hrepf : (task.status != "reported") = false := by simpa using hrep
      have hid : task.id ∈ st.tasks.map fun t => t.id := hmem task (List.mem_cons_self _ _)
      obtain ⟨cur, hcur⟩ := Option.isSome_iff_exists.mp (find?_id_isSome_of_mem_map _ _ hid)
      cases hlook : List.lookup task.id st.reports with
      | none =>
        obtain ⟨st1, hval, htasks1, hrep1, _, _⟩ :=
          validateTask_ok st task.id false "Missing report file"
            (bugIds.headD "BUG-00000000") now cur hcur
        have hmap1 : st1.tasks.map (fun t => t.id) = st.tasks.map fun t => t.id := by
          rw [htasks1]
          apply map_id_replaceFirstBy
          intro v
          rfl
        obtain ⟨processed, st', heq, hreports, hmap, hacc, hunt⟩ :=
          ih bugIds.tail ((task.id, false) :: acc) st1
            fun u hu => by rw [hmap1]; exact hmem u (List.mem_cons_of_mem _ hu)
        refine ⟨processed, st', ?_, by rw [hreports, hrep1], by rw [hmap, hmap1],
          (fun pr hpr => hacc pr (List.mem_cons_of_mem _ hpr)), ?_⟩
        · simp only [managerValidateLoop, hrepf, Bool.false_eq_true, if_false, hlook, hval]
          exact heq
        · intro x hx
          rw [hunt x fun u hu => hx u (List.mem_cons_of_mem _ hu), htasks1]
          apply find?_id_replaceFirstBy_ne
          · intro v; rfl
          · exact Ne.symm (hx task (List.mem_cons_self _ _))
      | some r2 =>
        obtain ⟨st1, hval, htasks1, hrep1, _, _⟩ :=
          validateTask_ok st task.id (managerDecision r2 strict)
            (autoNotes r2 (managerDecision r2 strict))
            (bugIds.headD "BUG-00000000") now cur hcur
        have hmap1 : st1.tasks.map (fun t => t.id) = st.tasks.map fun t => t.id := by
          rw [htasks1]
          apply map_id_replaceFirstBy
          intro v
          rfl
        obtain ⟨processed, st', heq, hreports, hmap, hacc, hunt⟩ :=
          ih bugIds.tail ((task.id, managerDecision r2 strict) :: acc) st1
            fun u hu => by rw [hmap1]; exact hmem u (List.mem_cons_of_mem _ hu)
        refine ⟨processed, st', ?_, by rw [hreports, hrep1], by rw [hmap, hmap1],
          (fun pr hpr => hacc pr (List.mem_cons_of_mem _ hpr)), ?_⟩
        · simp only [managerValidateLoop, hrepf, Bool.false_eq_true, if_false, hlook, hval]
          exact heq
        · intro x hx
          rw [hunt x fun u hu => hx u (List.mem_cons_of_mem _ hu), htasks1]
          apply find?_id_replaceFirstBy_ne
          · intro v; rfl
          · exact Ne.symm (hx task (List.mem_cons_self _ _))

theorem managerValidateLoop_tracks (strict : Bool) (now : Int) (x : String) (r : Report) :
    ∀ (snapshot : List Task) (bugIds : List String) (acc : List (String × Bool))
      (st : OrchState) (t : Task),
      t ∈ snapshot → t.status = "reported" → t.id = x →
      (∀ u ∈ snapshot, u.id ∈ st.tasks.map fun v => v.id) →
      (snapshot.map fun v => v.id).Nodup →
      List.lookup x st.reports = some r →
      ∃ processed st',
        managerValidateLoop strict now snapshot bugIds acc st = .ok (processed, st') ∧
        (x, managerDecision r strict) ∈ processed ∧
        st'.tasks.find? (fun u => u.id == x) =
          (st.tasks.find? fun u => u.id == x).map fun u =>
            { u with
              status := if managerDecision r strict then "done" else "bug_open"
              updatedAt := now } := by
  intro snapshot
  induction snapshot with
  | nil => intro bugIds acc st t ht; simp at ht
  | cons task rest ih =>
    intro bugIds acc st t hmem hrept hidx hids hnodup hlook
    rw [List.map_cons, List.nodup_cons] at hnodup
    rcases List.mem_cons.mp hmem with rfl | hmem'
    · -- the tracked task is processed in this step
      have hrepf : (t.status != "reported") = false := by simp [hrept]
      have hid : t.id ∈ st.tasks.map fun v => v.id := hids t (List.mem_cons_self _ _)
      obtain ⟨cur, hcur⟩ := Option.isSome_iff_exists.mp (find?_id_isSome_of_mem_map _ _ hid)
      subst hidx
      obtain ⟨st1, hval, htasks1, hrep1, _, _⟩ :=
        validateTask_ok st t.id (managerDecision r strict)
          (autoNotes r (managerDecision r strict))
          (bugIds.headD "BUG-00000000") now cur hcur
      have hmap1 : st1.tasks.map (fun v => v.id) = st.tasks.map fun v => v.id := by
        rw [htasks1]
        apply map_id_replaceFirstBy
        intro v
        rfl
      obtain ⟨processed, st', heq, _, _, hacc, hunt⟩ :=
        managerValidateLoop_ok strict now rest bugIds.tail
          ((t.id, managerDecision r strict) :: acc) st1
          fun u hu => by rw [hmap1]; exact hids u (List.mem_cons_of_mem _ hu)
      refine ⟨processed, st', ?_, ?_, ?_⟩
      · simp only [managerValidateLoop, hrepf, Bool.false_eq_true, if_false, hlook, hval]
        exact heq
      · exact hacc _ (List.mem_cons_self _ _)
      · have huntx : st'.tasks.find? (fun u => u.id == t.id) =
            st1.tasks.find? fun u => u.id == t.id := by
          refine hunt t.id fun u hu he => hnodup.1 ?_
          exact he ▸ List.mem_map.mpr ⟨u, hu, rfl⟩
        rw [huntx, htasks1]
        apply find?_id_replaceFirstBy_self
        intro v
        rfl
    · -- the tracked task sits further down the snapshot
      have hxrest : x ∈ rest.map fun v => v.id := hidx ▸ List.mem_map.mpr ⟨t, hmem', rfl⟩
      have hxne : task.id ≠ x := fun he => hnodup.1 (he ▸ hxrest)
      by_cases hrep : (task.status != "reported") = true
      · obtain ⟨processed, st', heq, htrack, hfind⟩ :=
          ih bugIds acc st t hmem' hrept hidx
            (fun u hu => hids u (List.mem_cons_of_mem _ hu)) hnodup.2 hlook
        refine ⟨processed, st', ?_, htrack, hfind⟩
        simp only [managerValidateLoop, hrep, if_true]
        exact heq
      · have hrepf : (task.status != "reported") = false := by simpa using hrep
        have hid : task.id ∈ st.tasks.map fun v => v.id := hids task (List.mem_cons_self _ _)
        obtain ⟨cur, hcur⟩ := Option.isSome_iff_exists.mp (find?_id_isSome_of_mem_map _ _ hid)
        cases hlk : List.lookup task.id st.reports with
        | none =>
          obtain ⟨st1, hval, htasks1, hrep1, _, _⟩ :=
            validateTask_ok st task.id false "Missing report file"
              (bugIds.headD "BUG-00000000") now cur hcur
          have hmap1 : st1.tasks.map (fun v => v.id) = st.tasks.map fun v => v.id := by
            rw [htasks1]
            apply map_id_replaceFirstBy
            intro v
            rfl
          obtain ⟨processed, st', heq, htrack, hfind⟩ :=
            ih bugIds.tail ((task.id, false) :: acc) st1 t hmem' hrept hidx
              (fun u hu => by rw [hmap1]; exact hids u (List.mem_cons_of_mem _ hu))
              hnodup.2 (by rw [hrep1]; exact hlook)
          refine ⟨processed, st', ?_, htrack, ?_⟩
          · simp only [managerValidateLoop, hrepf, Bool.false_eq_true, if_false, hlk, hval]
            exact heq
          · rw [hfind, htasks1]
            apply congrArg
            apply find?_id_replaceFirstBy_ne
            · intro v; rfl
            · exact Ne.symm hxne
        | some r2 =>
          obtain ⟨st1, hval, htasks1, hrep1, _, _⟩ :=
            validateTask_ok st task.id (managerDecision r2 strict)
              (autoNotes r2 (managerDecision r2 strict))
              (bugIds.headD "BUG-00000000") now cur hcur
          have hmap1 : st1.tasks.map (fun v => v.id) = st.tasks.map fun v => v.id := by
            rw [htasks1]
            apply map_id_replaceFirstBy
            intro v
            rfl
          obtain ⟨processed, st', heq, htrack, hfind⟩ :=
            ih bugIds.tail ((task.id, managerDecision r2 strict) :: acc) st1 t hmem' hrept hidx
              (fun u hu => by rw [hmap1]; exact hids u (List.mem_cons_of_mem _ hu))
              hnodup.2 (by rw [hrep1]; exact hlook)
          refine ⟨processed, st', ?_, htrack, ?_⟩
          · simp only [managerValidateLoop, hrepf, Bool.false_eq_true, if_false, hlk, hval]
            exact heq
          · rw [hfind, htasks1]
            apply congrArg
            apply find?_id_replaceFirstBy_ne
            · intro v; rfl
            · exact Ne.symm hxne

theorem getLast?_cons_of_ne_nil {α : Type} (a : α) (l : List α) (h : l ≠ []) :
    (a :: l).getLast? = l.getLast? := by
  cases l with
  | nil => exact absurd rfl h
  | cons b rest => exact List.getLast?_cons_cons

theorem take_ne_nil_of_le {α : Type} (n : Nat) (l : List α) (hn : 1 ≤ n)
    (hl : 1 ≤ l.length) : l.take n ≠ [] := by
  have : 0 < (l.take n).length := by
    rw [List.length_take]; omega
  exact List.length_pos.mp this

theorem iterEventsFromAux_eq (start : Nat) :
    ∀ (lines : List (Option BusEvent)) (i : Nat),
      iterEventsFromAux start i lines =
        (lines.enumFrom i).filterMap fun p =>
          match p.2 with
          | some e => if start ≤ p.1 then some (p.1, e) else none
          | none => none := by
  intro lines
  induction lines with
  | nil => intro i; rfl
  | cons l rest ih =>
    intro i
    cases l with
    | none =>
      by_cases hi : i < start
      · simp [iterEventsFromAux, hi, List.enumFrom, ih]
      · simp [iterEventsFromAux, hi, List.enumFrom, ih]
    | some e =>
      by_cases hi : i < start
      · have hns : ¬ start ≤ i := by omega
        simp [iterEventsFromAux, hi, List.enumFrom, ih, hns]
      · have hs : start ≤ i := by omega
        simp [iterEventsFromAux, hi, List.enumFrom, ih, hs]

theorem iterEventsFrom_eq_parsedEventsSpec (start : Nat) (lines : List (Option BusEvent)) :
    iterEventsFrom start lines = parsedEventsSpec start lines := by
  unfold iterEventsFrom parsedEventsSpec
  rw [iterEventsFromAux_eq]
  rfl

theorem pollLoop_spec (agent : String) (limit : Int) :
    ∀ (pending acc : List (Nat × BusEvent)) (cur : Nat),
      acc.length < (max 1 limit).toNat →
      pollLoop agent limit pending acc cur =
        (acc.reverse ++
          (pending.filter fun p => audiencePasses agent p.2.audience).take
            ((max 1 limit).toNat - acc.length),
         if (max 1 limit).toNat - acc.length ≤
             (pending.filter fun p => audiencePasses agent p.2.audience).length
         then ((pending.filter fun p => audiencePasses agent p.2.audience).take
              ((max 1 limit).toNat - acc.length)).getLast?.elim cur (fun p => p.1 + 1)
         else pending.getLast?.elim cur fun p => p.1 + 1) := by
  intro pending
  induction pending with
  | nil =>
    intro acc cur hacc
    have hcond : ¬ ((max 1 limit).toNat - acc.length ≤ ([] :
        List (Nat × BusEvent)).length) := by
      simp only [List.length_nil]
      omega
    simp [pollLoop, hcond]
  | cons p rest ih =>
    obtain ⟨idx, ev⟩ := p
    intro acc cur hacc
    by_cases hpass : audiencePasses agent ev.audience
    · have hb : (!audiencePasses agent ev.audience) = false := by simp [hpass]
      by_cases hstop : ((((idx, ev) :: acc).length : Nat) : Int) ≥ limit
      · have hlen : acc.length + 1 = (max 1 limit).toNat := by
          simp only [List.length_cons] at hstop
          omega
        have h1 : (max 1 limit).toNat - acc.length = 1 := by omega
        have hcond : (max 1 limit).toNat - acc.length ≤
            (((idx, ev) :: rest).filter fun p => audiencePasses agent p.2.audience).length := by
          rw [h1, List.filter_cons_of_pos (by simpa using hpass)]
          simp
        simp only [pollLoop, hb, Bool.false_eq_true, if_false, List.length_cons]
        rw [if_pos (by simpa using hstop)]
        rw [List.filter_cons_of_pos (by simpa using hpass)]
        simp [h1, hcond]
      · have hlt : acc.length + 1 < (max 1 limit).toNat := by
          simp only [List.length_cons] at hstop
          omega
        have hrec := ih ((idx, ev) :: acc) (idx + 1) (by simpa using hlt)
        simp only [pollLoop, hb, Bool.false_eq_true, if_false, List.length_cons]
        rw [if_neg (by simpa using hstop)]
        rw [hrec]
        rw [List.filter_cons_of_pos (by simpa using hpass)]
        have hsub : (max 1 limit).toNat - acc.length =
            ((max 1 limit).toNat - ((idx, ev) :: acc).length) + 1 := by
          simp only [List.length_cons]
          omega
        rw [Prod.mk.injEq]
        constructor
        · rw [hsub, List.take_succ_cons, List.reverse_cons, List.append_assoc]
          rfl
        · have hcondiff : ((max 1 limit).toNat - ((idx, ev) :: acc).length ≤
              (rest.filter fun p => audiencePasses agent p.2.audience).length) ↔
              ((max 1 limit).toNat - acc.length ≤
              ((idx, ev) :: rest.filter fun p => audiencePasses agent p.2.audience).length) := by
            simp only [List.length_cons]
            omega
          by_cases hc : (max 1 limit).toNat - ((idx, ev) :: acc).length ≤
              (rest.filter fun p => audiencePasses agent p.2.audience).length
          · rw [if_pos hc, if_pos (hcondiff.mp hc)]
            rw [hsub, List.take_succ_cons]
            have htail : (rest.filter fun p =>
                audiencePasses agent p.2.audience).take
                  ((max 1 limit).toNat - ((idx, ev) :: acc).length) ≠ [] := by
              apply take_ne_nil_of_le
              · simp only [List.length_cons] at hlt ⊢
                omega
              · simp only [List.length_cons] at hc ⊢
                omega
            rw [getLast?_cons_of_ne_nil _ _ htail]
            cases hgl : ((rest.filter fun p => audiencePasses agent p.2.audience).take
                ((max 1 limit).toNat - ((idx, ev) :: acc).length)).getLast? with
            | none => exact absurd (List.getLast?_eq_none_iff.mp hgl) htail
            | some q => rfl
          · rw [if_neg hc, if_neg (fun hcc => hc (hcondiff.mpr hcc))]
            cases rest with
            | nil => rfl
            | cons q qs =>
              rw [List.getLast?_cons_cons]
              cases hgl : (q :: qs).getLast? with
              | none => simp at hgl
              | some z => rfl
    · have hb : (!audiencePasses agent ev.audience) = true := by simp [hpass]
      have hrec := ih acc (idx + 1) hacc
      simp only [pollLoop, hb, if_true]
      rw [hrec]
      rw [List.filter_cons_of_neg (by simpa using hpass)]
      rw [Prod.mk.injEq]
      constructor
      · rfl
      · by_cases hc : (max 1 limit).toNat - acc.length ≤
            (rest.filter fun p => audiencePasses agent p.2.audience).length
        · rw [if_pos hc, if_pos hc]
          have htake : (rest.filter fun p => audiencePasses agent p.2.audience).take
              ((max 1 limit).toNat - acc.length) ≠ [] := by
            apply take_ne_nil_of_le
            · omega
            · omega
          cases hgl : ((rest.filter fun p => audiencePasses agent p.2.audience).take
              ((max 1 limit).toNat - acc.length)).getLast? with
          | none => exact absurd (List.getLast?_eq_none_iff.mp hgl) htake
          | some q => rfl
        · rw [if_neg hc, if_neg hc]
          cases rest with
          | nil => rfl
          | cons q qs =>
            rw [List.getLast?_cons_cons]
            cases hgl : (q :: qs).getLast? with
            | none => simp at hgl
            | some z => rfl

/-- C1 (amended): for every poll by an operational agent with resolved
start index `start`, the delivered events are exactly the first
`max(1, limit)` parsed events at raw-line index at least `start` whose
audience is absent or empty, names the agent, or names `*` (so an event is
included iff it passes the audience filter and falls within that prefix,
and at most `max(1, limit)` events are returned — a limit below one
behaves as one); `next_cursor` is one past the last event line consumed,
so audience-skipped events still advance the cursor past them; and with
`auto_advance` the stored cursor becomes `next_cursor`, while without it
the cursors document is untouched. -/
theorem poll_events_delivery
    (st : OrchState) (agent : String) (cursor : Option Int) (limit : Int)
    (autoAdvance : Bool) (now : Int)
    (hop : agentIsOperational st agent = true) :
    ∃ res st',
      pollEvents st agent cursor limit autoAdvance now = .ok (res, st') ∧
      res.cursor = (match cursor with
        | none => getAgentCursor st agent
        | some c => c.toNat) ∧
      res.events = (acceptedEventsSpec agent res.cursor st.events).take (max 1 limit).toNat ∧
      res.nextCursor = nextCursorSpec agent res.cursor st.events (max 1 limit).toNat ∧
      (autoAdvance = true → getAgentCursor st' agent = res.nextCursor) ∧
      (autoAdvance = false → st'.cursors = st.cursors) := by
  have hcurs : (refreshAgentPresence st agent now).cursors = st.cursors := by
    unfold refreshAgentPresence
    split <;> rfl
  have hev : (refreshAgentPresence st agent now).events = st.events := by
    unfold refreshAgentPresence
    split <;> rfl
  have hone : (1 : Int) ≤ max 1 limit := le_max_left _ _
  have hpos : 0 < (max 1 limit).toNat := by omega
  have hstart : (match cursor with
      | none => getAgentCursor (refreshAgentPresence st agent now) agent
      | some c => c.toNat) = (match cursor with
      | none => getAgentCursor st agent
      | some c => c.toNat) := by
    cases cursor with
    | none => simp only [getAgentCursor, hcurs]
    | some c => rfl
  unfold pollEvents
  rw [hop]
  simp only [Bool.not_true, Bool.false_eq_true, if_false]
  rw [pollLoop_spec agent limit _ [] _ hpos]
  refine ⟨_, _, rfl, hstart, ?_, ?_, ?_, ?_⟩
  · simp only [List.reverse_nil, List.nil_append, List.length_nil, Nat.sub_zero, hev]
    rw [iterEventsFrom_eq_parsedEventsSpec, hstart]
    rfl
  · simp only [List.length_nil, Nat.sub_zero, hev]
    rw [iterEventsFrom_eq_parsedEventsSpec, hstart]
    rfl
  · intro ha
    rw [ha]
    simp only [if_true, getAgentCursor, setAgentCursor, lookup_alSet_self, Option.getD_some,
      Int.toNat_natCast]
  · intro ha
    rw [ha]
    simp only [Bool.false_eq_true, if_false, hcurs]

/-- Witness for C1 (amended) at a concrete log: a malformed line and an
event addressed to `bob` are skipped for `alice`, two events are
delivered, and the auto-advanced cursor lands one past the last accepted
line. -/
theorem poll_events_delivery_witness :
    agentIsOperational exStCycle "alice" = true ∧
    ∃ res st',
      pollEvents exStCycle "alice" (some 0) 2 true 20 = .ok (res, st') ∧
      res.cursor = 0 ∧
      res.events = (acceptedEventsSpec "alice" res.cursor exStCycle.events).take 2 ∧
      res.nextCursor = nextCursorSpec "alice" res.cursor exStCycle.events 2 ∧
      (true = true → getAgentCursor st' "alice" = res.nextCursor) ∧
      (true = false → st'.cursors = exStCycle.cursors) := by
  refine ⟨by decide, ?_⟩
  obtain ⟨res, st', heq, hcur, hevents, hnext, hadv, hnoadv⟩ :=
    poll_events_delivery exStCycle "alice" (some 0) 2 true 20 (by decide)
  exact ⟨res, st', heq, hcur, by simpa using hevents, by simpa using hnext, hadv, hnoadv⟩

/-- Counterexample for C1 as stated: with `limit = 0` the loop still
returns one accepted event, because the break is checked only after an
event is appended — so "at most `limit` accepted events" fails, and the
second audience-passing event at index 3 is omitted despite satisfying the
claimed inclusion condition. -/
theorem poll_events_limit_zero_returns_one :
    (exceptToOption (pollEvents exStCycle "alice" (some 0) 0 true 20)).map
        (fun p => (p.1.events, p.1.nextCursor)) =
      some ([(0, { type := "task.assigned", source := "codex" })], 1) ∧
    audiencePasses "alice" (some ["bob"]) = false ∧
    audiencePasses "alice" none = true := by
  decide

/-- C5: in the reported-task validation stage of the manager cycle, every
task in status `reported` whose report file exists receives the decision
pass iff the report declares `done` with zero failed tests — in strict
mode additionally requiring a non-empty `commit_sha` and a non-blank
`test_summary.command` — and the decision is recorded through
`validate_task` by the current leader, leaving the task `done` on pass and
`bug_open` on fail. -/
theorem manager_cycle_validates_reported
    (st : OrchState) (strict : Bool) (bugIds : List String) (now : Int)
    (t : Task) (r : Report)
    (hnodup : (st.tasks.map fun u => u.id).Nodup)
    (hmem : t ∈ st.tasks)
    (hrep : t.status = "reported")
    (hfile : List.lookup t.id st.reports = some r) :
    (managerDecision r strict = true ↔
      (r.status = some "done" ∧ (r.testSummary.getD {}).failed.getD 1 = 0 ∧
       (strict = true → r.commitSha.getD "" ≠ "" ∧
         pyStrip ((r.testSummary.getD {}).command.getD "") ≠ ""))) ∧
    ∃ processed st',
      managerValidateReported st strict bugIds now = .ok (processed, st') ∧
      (t.id, managerDecision r strict) ∈ processed ∧
      st'.tasks.find? (fun u => u.id == t.id) =
        some { t with
          status := if managerDecision r strict then "done" else "bug_open"
          updatedAt := now } := by
  constructor
  · cases hst : r.status with
    | none => cases strict <;> simp [managerDecision, hst]
    | some s => cases strict <;> simp [managerDecision, hst, and_assoc]
  · obtain ⟨processed, st', heq, htrack, hfind⟩ :=
      managerValidateLoop_tracks strict now t.id r st.tasks bugIds [] st t hmem hrep rfl
        (fun u hu => List.mem_map.mpr ⟨u, hu, rfl⟩) hnodup hfile
    refine ⟨processed, st', heq, htrack, ?_⟩
    rw [hfind, find?_id_of_mem_nodup st.tasks t hmem hnodup]
    rfl

/-- Witness for C5: a strict cycle over a concrete state passes the
reported task with a complete report and marks it done. -/
theorem manager_cycle_validates_reported_witness :
    managerDecision exReportCycle true = true ∧
    ∃ processed st',
      managerValidateReported exStCycle true ["BUG-7"] 11 = .ok (processed, st') ∧
      ("T1", true) ∈ processed ∧
      st'.tasks.find? (fun u => u.id == "T1") =
        some { exTaskCycle with status := "done", updatedAt := 11 } := by
  have hdec : managerDecision exReportCycle true = true := by decide
  obtain ⟨-, processed, st', heq, htrack, hfind⟩ :=
    manager_cycle_validates_reported exStCycle true ["BUG-7"] 11 exTaskCycle exReportCycle
      (by decide) (by decide) (by decide) (by decide)
  rw [hdec] at htrack hfind
  exact ⟨hdec, processed, st', heq, htrack, hfind⟩

/-- C2: `create_task` returns an existing open task with `deduplicated`
when some open task shares the request's fingerprint — appending no task,
writing no command file and emitting no event — and otherwise appends a
fresh `assigned` task, writes its command file and emits `task.assigned`
from the leader. -/
theorem createTask_dedup_or_append
    (st : OrchState) (title workstream description taskId : String)
    (criteria : List String) (owner : Option String) (now : Int) :
    ((∃ t ∈ st.tasks, t.status ∈ openStatuses ∧
        taskFingerprint t.title t.workstream t.owner =
          taskFingerprint title workstream (resolveOwner st workstream owner)) →
      ((createTask st title workstream criteria description owner taskId now).1.deduplicated
          = true ∧
       (createTask st title workstream criteria description owner taskId now).1.task
          ∈ st.tasks ∧
       (createTask st title workstream criteria description owner taskId now).1.task.status
          ∈ openStatuses ∧
       taskFingerprint
         (createTask st title workstream criteria description owner taskId now).1.task.title
         (createTask st title workstream criteria description owner taskId now).1.task.workstream
         (createTask st title workstream criteria description owner taskId now).1.task.owner =
         taskFingerprint title workstream (resolveOwner st workstream owner) ∧
       (createTask st title workstream criteria description owner taskId now).2 = st)) ∧
    ((¬ ∃ t ∈ st.tasks, t.status ∈ openStatuses ∧
        taskFingerprint t.title t.workstream t.owner =
          taskFingerprint title workstream (resolveOwner st workstream owner)) →
      ((createTask st title workstream criteria description owner taskId now).1.deduplicated
          = false ∧
       (createTask st title workstream criteria description owner taskId now).1.task =
         { id := taskId
           title := title
           description := description
           workstream := workstream
           owner := resolveOwner st workstream owner
           status := "assigned"
           acceptanceCriteria := criteria
           createdAt := now
           updatedAt := now } ∧
       (createTask st title workstream criteria description owner taskId now).2.tasks =
         st.tasks ++
           [(createTask st title workstream criteria description owner taskId now).1.task] ∧
       (createTask st title workstream criteria description owner taskId now).2.commands =
         alSet st.commands taskId
           { taskId := taskId
             owner := resolveOwner st workstream owner
             title := title
             description := description
             workstream := workstream
             acceptanceCriteria := criteria } ∧
       (createTask st title workstream criteria description owner taskId now).2.events =
         st.events ++
           [some { type := "task.assigned"
                   source := managerAgent st
                   data := [("task_id", taskId),
                            ("owner", resolveOwner st workstream owner),
                            ("workstream", workstream)] }])) := by
  constructor
  · intro hex
    have hsome : (findDuplicateOpenTask st.tasks title workstream
        (resolveOwner st workstream owner)).isSome := by
      simp only [findDuplicateOpenTask]
      rw [List.find?_isSome]
      obtain ⟨t, ht, hst, hfp⟩ := hex
      exact ⟨t, ht, by simp [hst, hfp]⟩
    obtain ⟨dup, hdup⟩ := Option.isSome_iff_exists.mp hsome
    have hfind : st.tasks.find? (fun t =>
        openStatuses.contains t.status &&
          (taskFingerprint t.title t.workstream t.owner ==
            taskFingerprint title workstream (resolveOwner st workstream owner))) = some dup := by
      simpa [findDuplicateOpenTask] using hdup
    have hmem := List.mem_of_find?_eq_some hfind
    have hp := List.find?_some hfind
    simp only [Bool.and_eq_true, beq_iff_eq] at hp
    have hcontains : dup.status ∈ openStatuses := by
      have := hp.1
      simpa using this
    refine ⟨by simp [createTask, hdup], ?_, ?_, ?_, by simp [createTask, hdup]⟩
    · simpa [createTask, hdup] using hmem
    · simpa [createTask, hdup] using hcontains
    · simpa [createTask, hdup] using hp.2
  · intro hnone
    have hfind : findDuplicateOpenTask st.tasks title workstream
        (resolveOwner st workstream owner) = none := by
      simp only [findDuplicateOpenTask]
      rw [List.find?_eq_none]
      intro t ht hp
      refine hnone ⟨t, ht, ?_⟩
      simpa using hp
    simp [createTask, hfind, managerAgent, emitEvent]

/-- Witness for C2: a creation request whose normalized fingerprint matches
an existing open task returns that task with `deduplicated` and leaves the
state untouched. -/
theorem createTask_dedup_or_append_witness :
    (∃ t ∈ exStDup.tasks, t.status ∈ openStatuses ∧
       taskFingerprint t.title t.workstream t.owner =
         taskFingerprint "build x" "backend" (resolveOwner exStDup "backend" none)) ∧
    ((createTask exStDup "build x" "backend" [] "" none "TASK-2" 5).1.deduplicated = true ∧
     (createTask exStDup "build x" "backend" [] "" none "TASK-2" 5).1.task ∈ exStDup.tasks ∧
     (createTask exStDup "build x" "backend" [] "" none "TASK-2" 5).1.task.status
        ∈ openStatuses ∧
     taskFingerprint
       (createTask exStDup "build x" "backend" [] "" none "TASK-2" 5).1.task.title
       (createTask exStDup "build x" "backend" [] "" none "TASK-2" 5).1.task.workstream
       (createTask exStDup "build x" "backend" [] "" none "TASK-2" 5).1.task.owner =
       taskFingerprint "build x" "backend" (resolveOwner exStDup "backend" none) ∧
     (createTask exStDup "build x" "backend" [] "" none "TASK-2" 5).2 = exStDup) :=
  ⟨by decide,
   (createTask_dedup_or_append exStDup "build x" "backend" "" "TASK-2" [] none 5).1 (by decide)⟩

/-- Counterexample for C3 as stated: from a reachable state, one leader
`set_task_status` call yields a `done` task with no report file and an
open bug referencing it. -/
theorem done_task_without_report_reachable :
    exceptOk (setTaskStatus exStDone "T1" "done" "codex" "" 9) = true ∧
    ((exceptToOption (setTaskStatus exStDone "T1" "done" "codex" "" 9)).map
       (fun p => (p.2.tasks.map (fun t => (t.id, t.status)),
                  List.lookup "T1" p.2.reports,
                  p.2.bugs.map fun b => (b.sourceTask, b.status))) =
     some ([("T1", "done")], none, [("T1", "open")])) := by
  decide

end AgentLeader
